import Mathlib

/-!
# Peripherals: polled SPI register drivers for the AD53x8 DAC and the AD7811 ADC

Shallow embedding of `soft/device.h`, `soft/spi.h`, `soft/ad53x8.h`,
`soft/ad53x8.cpp` and `soft/ad7811.h`.

The drivers only talk to the outside world through volatile loads and stores
at `m_base_addr + offset`.  The embedding threads the list of accesses made so
far (the trace, oldest first) through every operation.  The device behind the
register space is a function from that history and an address to the word a
load would see there, which covers every deterministic simulated register
space.  Busy-wait loops take a poll budget: a run either returns, or is still
spinning when the budget of one of its loops is used up.
-/

namespace Peripherals

/-- One volatile access: the absolute address, the width in bits of the
accessed object, and for a store the value stored. -/
inductive Access where
  | load (addr bits : Nat)
  | store (addr bits val : Nat)
  deriving DecidableEq, Repr

/-- Accesses in program order, oldest first. -/
abbrev Trace := List Access

/-- The register space as seen by the processor: `hw t a` is the word a load
from address `a` observes after the accesses `t`. -/
abbrev RegSpace := Trace → Nat → Nat

/-- Outcome of running an operation with a poll budget: it returned `val`, or
the budget of a busy-wait loop ran out while the flag was still set. -/
inductive Run (α : Type) where
  | ret (val : α) (t : Trace)
  | spin (t : Trace)
  deriving DecidableEq, Repr

/-- Accesses made up to the point the run returned or was cut off. -/
def Run.trace {α : Type} : Run α → Trace
  | Run.ret _ t => t
  | Run.spin t => t

/-- Sequencing: the rest of the body runs only when the first part returned. -/
def Run.bind {α β : Type} (r : Run α) (f : α → Trace → Run β) : Run β :=
  match r with
  | Run.ret v t => f v t
  | Run.spin t => Run.spin t

/-- Whether the run returned. -/
def Run.returned {α : Type} : Run α → Bool
  | Run.ret _ _ => true
  | Run.spin _ => false

/-- Whether an access is a store. -/
def Access.isStore : Access → Bool
  | Access.store _ _ _ => true
  | Access.load _ _ => false

/-- Class `Device`: the base address of the register space, together with
the width of `uintptr_t` on the target. -/
structure Device where
  uintptr_bits : Nat
  m_base_addr : Nat
  deriving DecidableEq, Repr

/-- The address `m_base_addr + static_cast<uintptr_t>(offset)`, computed in
`uintptr_t`. -/
def Device.regAddr (d : Device) (offset : Nat) : Nat :=
  (d.m_base_addr + offset) % 2 ^ d.uintptr_bits

/-- `Device::writeReg<T1, T2>`: one volatile store of a `T2` object (`bits`
wide) holding `wr_data` converted to `T2`. -/
def Device.writeReg (d : Device) (bits offset wr_data : Nat) (t : Trace) : Trace :=
  t ++ [Access.store (d.regAddr offset) bits (wr_data % 2 ^ bits)]

/-- `Device::readReg<T1, T2>`: one volatile load of a `T2` object (`bits`
wide); returns the value and the extended trace. -/
def Device.readReg (hw : RegSpace) (d : Device) (bits offset : Nat) (t : Trace) : Nat × Trace :=
  (hw t (d.regAddr offset) % 2 ^ bits, t ++ [Access.load (d.regAddr offset) bits])

namespace Spi

/-- `Spi::wait_tx_fifo<T1, T2>`: `while (readReg<T1, T2>(tx_fifo_addr) & tx_full_position);`
with `T2` an unsigned type `bits` wide.  The first argument after `bits` is the
poll budget. -/
def wait_tx_fifo (hw : RegSpace) (d : Device) (bits : Nat) :
    Nat → Nat → Nat → Trace → Run Unit
  | 0, _, _, t => Run.spin t
  | n + 1, tx_fifo_addr, tx_full_position, t =>
    let r := d.readReg hw bits tx_fifo_addr t
    if r.1 &&& tx_full_position ≠ 0 then
      wait_tx_fifo hw d bits n tx_fifo_addr tx_full_position r.2
    else Run.ret () r.2

/-- `Spi::wait_rx_fifo<T1, T2>`: `while (readReg<T1, T2>(rx_fifo_addr) & rx_empty_position);`. -/
def wait_rx_fifo (hw : RegSpace) (d : Device) (bits : Nat) :
    Nat → Nat → Nat → Trace → Run Unit
  | 0, _, _, t => Run.spin t
  | n + 1, rx_fifo_addr, rx_empty_position, t =>
    let r := d.readReg hw bits rx_fifo_addr t
    if r.1 &&& rx_empty_position ≠ 0 then
      wait_rx_fifo hw d bits n rx_fifo_addr rx_empty_position r.2
    else Run.ret () r.2

end Spi

namespace Ad53x8

/-- `enum Reg`: control register. -/
@[simp] def Reg.CTRL : Nat := 0x0
/-- `enum Reg`: status register. -/
@[simp] def Reg.STAT : Nat := 0x4
/-- `enum Reg`: transmit FIFO. -/
@[simp] def Reg.TX_FIFO : Nat := 0x8

/-- `enum R_ctrl`. -/
@[simp] def R_ctrl.SPI_LOAD : Nat := 0x0
/-- `enum R_ctrl`. -/
@[simp] def R_ctrl.SPI_STORE : Nat := 0x1

/-- `enum R_stat`: TX fifo is full. -/
@[simp] def R_stat.TX_FULL : Nat := 0b01
/-- `enum R_stat`: TX fifo is empty. -/
@[simp] def R_stat.TX_EMPTY : Nat := 0b10

/-- `enum Ad_data`: channel shift. -/
@[simp] def Ad_data.CH_SH : Nat := 12
/-- `enum Ad_data`: data shift. -/
@[simp] def Ad_data.DT_SH : Nat := 2
/-- `enum Ad_data`: channel mask. -/
@[simp] def Ad_data.CH_MSK : Nat := 0x7 <<< 12
/-- `enum Ad_data`: data mask. -/
@[simp] def Ad_data.DT_MSK : Nat := 0x3FF <<< 2

/-- `enum Ad_cmd`: write-command flag. -/
@[simp] def Ad_cmd.WR_CMD : Nat := 1 <<< 15
/-- `enum Ad_cmd`: gain, buffer, Vdd function. -/
@[simp] def Ad_cmd.CTRL_GBV : Nat := 0x0 <<< 13
/-- `enum Ad_cmd`: LDAC mode function. -/
@[simp] def Ad_cmd.CTRL_LDAC : Nat := 0x1 <<< 13
/-- `enum Ad_cmd`: power-down function. -/
@[simp] def Ad_cmd.CTRL_PD : Nat := 0x2 <<< 13
/-- `enum Ad_cmd`: reset function. -/
@[simp] def Ad_cmd.CTRL_RST : Nat := 0x3 <<< 13
/-- `enum Ad_cmd`. -/
@[simp] def Ad_cmd.GBV_VDD_AD : Nat := 1 <<< 0
/-- `enum Ad_cmd`. -/
@[simp] def Ad_cmd.GBV_VDD_EH : Nat := 1 <<< 1
/-- `enum Ad_cmd`. -/
@[simp] def Ad_cmd.GBV_BUF_AD : Nat := 1 <<< 2
/-- `enum Ad_cmd`. -/
@[simp] def Ad_cmd.GBV_BUF_EH : Nat := 1 <<< 3
/-- `enum Ad_cmd`. -/
@[simp] def Ad_cmd.GBV_GAIN_0_VR_AD : Nat := 0 <<< 4
/-- `enum Ad_cmd`. -/
@[simp] def Ad_cmd.GBV_GAIN_0_VR_EH : Nat := 0 <<< 5
/-- `enum Ad_cmd`. -/
@[simp] def Ad_cmd.GBV_GAIN_0_2VR_AD : Nat := 1 <<< 4
/-- `enum Ad_cmd`. -/
@[simp] def Ad_cmd.GBV_GAIN_0_2VR_EH : Nat := 1 <<< 5
/-- `enum Ad_cmd`. -/
@[simp] def Ad_cmd.LDAC_LOW : Nat := 0x0
/-- `enum Ad_cmd`. -/
@[simp] def Ad_cmd.LDAC_HIGH : Nat := 0x1
/-- `enum Ad_cmd`. -/
@[simp] def Ad_cmd.LDAC_SINGLE : Nat := 0x2
/-- `enum Ad_cmd`. -/
@[simp] def Ad_cmd.PD_CH_A : Nat := 1 <<< 0
/-- `enum Ad_cmd`. -/
@[simp] def Ad_cmd.PD_CH_B : Nat := 1 <<< 1
/-- `enum Ad_cmd`. -/
@[simp] def Ad_cmd.PD_CH_C : Nat := 1 <<< 2
/-- `enum Ad_cmd`. -/
@[simp] def Ad_cmd.PD_CH_D : Nat := 1 <<< 3
/-- `enum Ad_cmd`. -/
@[simp] def Ad_cmd.PD_CH_E : Nat := 1 <<< 4
/-- `enum Ad_cmd`. -/
@[simp] def Ad_cmd.PD_CH_F : Nat := 1 <<< 5
/-- `enum Ad_cmd`. -/
@[simp] def Ad_cmd.PD_CH_G : Nat := 1 <<< 6
/-- `enum Ad_cmd`. -/
@[simp] def Ad_cmd.PD_CH_H : Nat := 1 <<< 7
/-- `enum Ad_cmd`. -/
@[simp] def Ad_cmd.RST_DATA_ONLY : Nat := 0 <<< 12
/-- `enum Ad_cmd`. -/
@[simp] def Ad_cmd.RST_DATA_CTRL : Nat := 1 <<< 12

/-- `Ad53x8::wr_some_data(const uint16_t wr_data)`: `wait_tx_fifo(Reg::STAT,
R_stat::TX_FULL)` polls a 32-bit `R_stat` object; `writeReg(Reg::TX_FIFO,
wr_data)` deduces `T2 = uint16_t`, so the argument is converted to 16 bits and
stored as a 16-bit object. -/
def wr_some_data (hw : RegSpace) (d : Device) (polls : Nat) (wr_data : Nat) (t : Trace) :
    Run Unit :=
  (Spi.wait_tx_fifo hw d 32 polls Reg.STAT R_stat.TX_FULL t).bind fun _ t1 =>
    Run.ret () (d.writeReg 16 Reg.TX_FIFO wr_data t1)

/-- `Ad53x8::init()` of `ad53x8.cpp`.  `writeReg(Reg::CTRL, R_ctrl::SPI_LOAD)`
stores a 32-bit `R_ctrl` object. -/
def init (hw : RegSpace) (d : Device) (polls : Nat) (t : Trace) : Run Unit :=
  let t0 := d.writeReg 32 Reg.CTRL R_ctrl.SPI_LOAD t
  (wr_some_data hw d polls
      (Ad_cmd.WR_CMD ||| Ad_cmd.CTRL_RST ||| Ad_cmd.RST_DATA_CTRL) t0).bind fun _ t1 =>
  (wr_some_data hw d polls
      (Ad_cmd.WR_CMD ||| Ad_cmd.CTRL_PD) t1).bind fun _ t2 =>
  (wr_some_data hw d polls
      (Ad_cmd.WR_CMD ||| Ad_cmd.CTRL_LDAC ||| Ad_cmd.LDAC_HIGH) t2).bind fun _ t3 =>
  wr_some_data hw d polls
      (Ad_cmd.WR_CMD ||| Ad_cmd.CTRL_GBV ||| Ad_cmd.GBV_BUF_AD ||| Ad_cmd.GBV_BUF_EH
        ||| Ad_cmd.GBV_GAIN_0_VR_AD ||| Ad_cmd.GBV_GAIN_0_VR_EH) t3

/-- `Ad53x8::wr_data(const uint8_t channel_number, const uint16_t data)`.  The
arguments are converted to 8 and 16 bits on entry; both shifts are done in
`int` and stay below `2 ^ 31`, so the 32-bit unsigned expression is computed
without wrap-around. -/
def wr_data (hw : RegSpace) (d : Device) (polls : Nat) (channel_number data : Nat)
    (t : Trace) : Run Unit :=
  wr_some_data hw d polls
    ((Ad_data.CH_MSK &&& ((channel_number % 2 ^ 8) <<< Ad_data.CH_SH))
      ||| (Ad_data.DT_MSK &&& ((data % 2 ^ 16) <<< Ad_data.DT_SH))) t

end Ad53x8

namespace Ad7811

/-- `enum Reg`: control register. -/
@[simp] def Reg.CTRL : Nat := 0x0
/-- `enum Reg`: status register. -/
@[simp] def Reg.STAT : Nat := 0x4
/-- `enum Reg`: transmit FIFO. -/
@[simp] def Reg.TX_FIFO : Nat := 0x8
/-- `enum Reg`: receive FIFO. -/
@[simp] def Reg.RX_FIFO : Nat := 0xC

/-- `enum R_ctrl`. -/
@[simp] def R_ctrl.SPI_FAST : Nat := 0x0
/-- `enum R_ctrl`. -/
@[simp] def R_ctrl.SPI_SLOW : Nat := 0x1

/-- `enum R_stat`: TX fifo is full. -/
@[simp] def R_stat.TX_FULL : Nat := 0b0001
/-- `enum R_stat`: TX fifo is empty. -/
@[simp] def R_stat.TX_EMPTY : Nat := 0b0010
/-- `enum R_stat`: RX fifo is full. -/
@[simp] def R_stat.RX_FULL : Nat := 0b0100
/-- `enum R_stat`: RX fifo is empty. -/
@[simp] def R_stat.RX_EMPTY : Nat := 0b1000

/-- `enum Ad_ctrl`: use external voltage reference. -/
@[simp] def Ad_ctrl.EXT_REF : Nat := 0b000000001
/-- `enum Ad_ctrl`: init convst. -/
@[simp] def Ad_ctrl.CONVST : Nat := 0b000000010
/-- `enum Ad_ctrl`: channel mask. -/
@[simp] def Ad_ctrl.CH_MASK : Nat := 0b000001100
/-- `enum Ad_ctrl`: differential mode. -/
@[simp] def Ad_ctrl.DIFF : Nat := 0b000010000
/-- `enum Ad_ctrl`: channel 4 voltage reference. -/
@[simp] def Ad_ctrl.REF_V4 : Nat := 0b000100000
/-- `enum Ad_ctrl`: full power-down. -/
@[simp] def Ad_ctrl.PD_FPD : Nat := 0b000000000
/-- `enum Ad_ctrl`: partial power-down at the end of conversion. -/
@[simp] def Ad_ctrl.PD_PPD_C : Nat := 0b001000000
/-- `enum Ad_ctrl`: full power-down at the end of conversion. -/
@[simp] def Ad_ctrl.PD_FPD_C : Nat := 0b010000000
/-- `enum Ad_ctrl`: power-up. -/
@[simp] def Ad_ctrl.PD_FPU : Nat := 0b011000000
/-- `enum Ad_ctrl`: SPI address. -/
@[simp] def Ad_ctrl.ADDR : Nat := 0b100000000
/-- `enum Ad_ctrl`: channel shift. -/
@[simp] def Ad_ctrl.CH_SH : Nat := 0x2

/-- `Ad7811::wr_cmd<T>(const T cmd_data)` for an unsigned type `T` that is
`bits` wide: `writeReg(Reg::TX_FIFO, cmd_data)` deduces `T2 = T` and stores a
`T` object, `wait_rx_fifo(Reg::STAT, R_stat::RX_EMPTY)` polls a 32-bit `R_stat`
object, and `readReg<Reg, T>(Reg::RX_FIFO)` loads a `T` object, which is
returned. -/
def wr_cmd (hw : RegSpace) (d : Device) (bits polls : Nat) (cmd_data : Nat) (t : Trace) :
    Run Nat :=
  let t1 := d.writeReg bits Reg.TX_FIFO cmd_data t
  (Spi.wait_rx_fifo hw d 32 polls Reg.STAT R_stat.RX_EMPTY t1).bind fun _ t2 =>
    let r := d.readReg hw bits Reg.RX_FIFO t2
    Run.ret r.1 r.2

/-- `Ad7811::init()`: `wr_cmd(Ad_ctrl::EXT_REF | Ad_ctrl::PD_FPU)` has an
`unsigned int` argument, so it is `wr_cmd<unsigned int>`, 32 bits wide; the
value it returns is dropped. -/
def init (hw : RegSpace) (d : Device) (polls : Nat) (t : Trace) : Run Unit :=
  let t1 := d.writeReg 32 Reg.CTRL R_ctrl.SPI_FAST t
  (wr_cmd hw d 32 polls (Ad_ctrl.EXT_REF ||| Ad_ctrl.PD_FPU) t1).bind fun _ t2 =>
    Run.ret () t2

/-- `Ad7811::rd_data<T>(const T channel_number)` for an unsigned type `T` that
is `bits` wide, on a target with 32-bit `int`.  The command-word expression has
type `unsigned int` when `T` is at most 32 bits wide (a narrower `T` is
promoted to `int`, where the shift cannot overflow) and type `T` when `T` is
wider; the shift wraps at the width of that type.  `wr_cmd` is instantiated at
the type of the expression, `max bits 32` bits wide, and its result is
converted to `T` on return. -/
def rd_data (hw : RegSpace) (d : Device) (bits polls : Nat) (channel_number : Nat)
    (t : Trace) : Run Nat :=
  (wr_cmd hw d (max bits 32) polls
    (Ad_ctrl.EXT_REF ||| Ad_ctrl.PD_FPU
      ||| (Ad_ctrl.CH_MASK
        &&& (((channel_number % 2 ^ bits) <<< Ad_ctrl.CH_SH) % 2 ^ (max bits 32)))) t).bind
    fun v t1 => Run.ret (v % 2 ^ bits) t1

end Ad7811

/-! ## Vocabulary for stating properties of runs -/

/-- The value the `(i+1)`-th consecutive load of the `bits`-wide word at
`addr` returns when polling starts after history `t`. -/
def pollValue (hw : RegSpace) (addr bits : Nat) (t : Trace) (i : Nat) : Nat :=
  hw (t ++ List.replicate i (Access.load addr bits)) addr % 2 ^ bits

/-- Polling from history `t`, the first `k` loads show the masked flag set and
load number `k + 1` shows it clear. -/
def clearsAfter (hw : RegSpace) (addr bits mask : Nat) (t : Trace) (k : Nat) : Prop :=
  (∀ i, i < k → pollValue hw addr bits t i &&& mask ≠ 0) ∧
    pollValue hw addr bits t k &&& mask = 0

instance (hw : RegSpace) (addr bits mask : Nat) (t : Trace) (k : Nat) :
    Decidable (clearsAfter hw addr bits mask t k) :=
  inferInstanceAs (Decidable ((∀ i, i < k → pollValue hw addr bits t i &&& mask ≠ 0) ∧
    pollValue hw addr bits t k &&& mask = 0))

/-- A register space in which every word always reads zero: no status flag is
ever set. -/
def idleSpace : RegSpace := fun _ _ => 0

/-- A register space in which every word always reads `0xF`: all four status
flags stay set for ever. -/
def stuckSpace : RegSpace := fun _ _ => 0xF

/-- A register space in which every word always reads `1`: TX_FULL is set for
ever and RX_EMPTY is clear. -/
def txFullSpace : RegSpace := fun _ _ => 1

/-- A register space whose words read `0xF` until `k` accesses have been made
and `v` from then on. -/
def slowSpace (k v : Nat) : RegSpace := fun t _ => if t.length < k then 0xF else v

/-- A device at base address `0x40000000` on a target with 32-bit pointers. -/
def dev32 : Device := ⟨32, 0x40000000⟩

/-- State kept by the transmit guard while scanning accesses: the history so
far, and whether a load of STAT that showed TX_FULL clear has been seen since
the last store. -/
structure GuardState where
  seen : Trace
  ready : Bool

/-- One step of the transmit guard.  A store to `tx` is accepted only when
`ready`; every store resets `ready`; a load of `stat` whose value has bit 0
(TX_FULL) clear sets it. -/
def txGuardStep (hw : RegSpace) (stat tx : Nat) (s : Option GuardState) (a : Access) :
    Option GuardState :=
  match s with
  | none => none
  | some g =>
    match a with
    | Access.load addr bits =>
      some ⟨g.seen ++ [a],
        g.ready || (addr == stat && (hw g.seen addr % 2 ^ bits) &&& 1 == 0)⟩
    | Access.store addr _ _ =>
      if addr == tx && !g.ready then none else some ⟨g.seen ++ [a], false⟩

/-- Every store to `tx` among the accesses `ext`, made after history `t0`, is
preceded, with no store in between, by a load of `stat` made within `ext` that
showed TX_FULL clear. -/
def txGuarded (hw : RegSpace) (stat tx : Nat) (t0 ext : Trace) : Bool :=
  (ext.foldl (txGuardStep hw stat tx) (some ⟨t0, false⟩)).isSome

/-- The run `r`, started after history `t`, only extends `t`, and the transmit
guard accepts every access it added, whatever the guard's `ready` flag was at
the start. -/
def GuardedRun {α : Type} (hw : RegSpace) (stat tx : Nat) (t : Trace) (r : Run α) : Prop :=
  ∀ b : Bool, ∃ (ext : Trace) (b1 : Bool), r.trace = t ++ ext ∧
    ext.foldl (txGuardStep hw stat tx) (some ⟨t, b⟩) = some ⟨t ++ ext, b1⟩

/-- The run `r`, started after history `t`, only extends `t`, and every
access it added satisfies `P`. -/
def RunWithin {α : Type} (P : Access → Prop) (t : Trace) (r : Run α) : Prop :=
  ∃ ext : Trace, r.trace = t ++ ext ∧ ∀ a ∈ ext, P a

/-- Width in bits of the object an access loads or stores. -/
def Access.width : Access → Nat
  | Access.load _ bits => bits
  | Access.store _ bits _ => bits

/-- A register space whose words read `a` until `k` accesses have been made
and `b` from then on. -/
def twoPhaseSpace (k a b : Nat) : RegSpace := fun t _ => if t.length < k then a else b

/-- A register space in which the word at offset 4 of each 16-byte block
(STAT) always reads `s` and every other word always reads `v`. -/
def statSpace (s v : Nat) : RegSpace := fun _ addr => if addr % 16 = 4 then s else v

theorem append_replicate_succ (t : Trace) (a : Access) (i : Nat) :
    t ++ List.replicate (i + 1) a = (t ++ [a]) ++ List.replicate i a := by
  simp [List.replicate_succ]

theorem pollValue_zero (hw : RegSpace) (addr bits : Nat) (t : Trace) :
    pollValue hw addr bits t 0 = hw t addr % 2 ^ bits := by
  simp [pollValue]

theorem pollValue_shift (hw : RegSpace) (addr bits : Nat) (t : Trace) (i : Nat) :
    pollValue hw addr bits (t ++ [Access.load addr bits]) i
      = pollValue hw addr bits t (i + 1) := by
  unfold pollValue
  rw [append_replicate_succ]

theorem clearsAfter_shift {hw : RegSpace} {addr bits mask : Nat} {t : Trace} {k : Nat}
    (h : clearsAfter hw addr bits mask t (k + 1)) :
    clearsAfter hw addr bits mask (t ++ [Access.load addr bits]) k := by
  refine ⟨fun i hi => ?_, ?_⟩
  · rw [pollValue_shift]
    exact h.1 (i + 1) (by omega)
  · rw [pollValue_shift]
    exact h.2

theorem wait_rx_fifo_eq (hw : RegSpace) (d : Device) (bits : Nat) :
    ∀ (n off mask : Nat) (t : Trace),
      Spi.wait_rx_fifo hw d bits n off mask t = Spi.wait_tx_fifo hw d bits n off mask t := by
  intro n
  induction n with
  | zero => intro off mask t; rfl
  | succ n ih =>
    intro off mask t
    simp only [Spi.wait_rx_fifo, Spi.wait_tx_fifo, ih]

theorem wait_tx_fifo_ret (hw : RegSpace) (d : Device) (bits : Nat) :
    ∀ (n k off mask : Nat) (t : Trace), k < n →
      clearsAfter hw (d.regAddr off) bits mask t k →
      Spi.wait_tx_fifo hw d bits n off mask t
        = Run.ret () (t ++ List.replicate (k + 1) (Access.load (d.regAddr off) bits)) := by
  intro n
  induction n with
  | zero => intro k off mask t hk; omega
  | succ n ih =>
    intro k off mask t hk h
    cases k with
    | zero =>
      have h0 := h.2
      rw [pollValue_zero] at h0
      simp [Spi.wait_tx_fifo, Device.readReg, h0]
    | succ k =>
      have h0 := h.1 0 (by omega)
      rw [pollValue_zero] at h0
      have hrec := ih k off mask _ (by omega) (clearsAfter_shift h)
      simp only [Spi.wait_tx_fifo, Device.readReg, ne_eq, h0, not_false_eq_true, if_true]
      rw [hrec, ← append_replicate_succ]

theorem wait_tx_fifo_spin (hw : RegSpace) (d : Device) (bits : Nat) :
    ∀ (n off mask : Nat) (t : Trace),
      (∀ i, i < n → pollValue hw (d.regAddr off) bits t i &&& mask ≠ 0) →
      Spi.wait_tx_fifo hw d bits n off mask t
        = Run.spin (t ++ List.replicate n (Access.load (d.regAddr off) bits)) := by
  intro n
  induction n with
  | zero => intro off mask t _; simp [Spi.wait_tx_fifo]
  | succ n ih =>
    intro off mask t h
    have h0 := h 0 (by omega)
    rw [pollValue_zero] at h0
    have hrec := ih off mask (t ++ [Access.load (d.regAddr off) bits]) (fun i hi => by
      rw [pollValue_shift]; exact h (i + 1) (by omega))
    simp only [Spi.wait_tx_fifo, Device.readReg, ne_eq, h0, not_false_eq_true, if_true]
    rw [hrec, ← append_replicate_succ]

/-- Either the flag clears within the budget, or all polls of the budget saw it set. -/
theorem clears_or_stuck (hw : RegSpace) (addr bits mask : Nat) (t : Trace) (n : Nat) :
    (∃ k, k < n ∧ clearsAfter hw addr bits mask t k) ∨
      (∀ i, i < n → pollValue hw addr bits t i &&& mask ≠ 0) := by
  induction n with
  | zero => right; intro i hi; omega
  | succ n ih =>
    rcases ih with ⟨k, hk, hc⟩ | hs
    · exact Or.inl ⟨k, by omega, hc⟩
    · by_cases hn : pollValue hw addr bits t n &&& mask = 0
      · exact Or.inl ⟨n, by omega, hs, hn⟩
      · right
        intro i hi
        rcases Nat.lt_succ_iff_lt_or_eq.mp hi with h | h
        · exact hs i h
        · subst h; exact hn

theorem clearsAfter_unique {hw : RegSpace} {addr bits mask : Nat} {t : Trace} {j k : Nat}
    (hj : clearsAfter hw addr bits mask t j) (hk : clearsAfter hw addr bits mask t k) :
    j = k := by
  rcases Nat.lt_trichotomy j k with h | h | h
  · exact absurd hj.2 (hk.1 j h)
  · exact h
  · exact absurd hk.2 (hj.1 k h)

/-! ## Command-word arithmetic -/

theorem field_shift (n s c : Nat) :
    ((2 ^ n - 1) <<< s) &&& (c <<< s) = (c % 2 ^ n) <<< s := by
  apply Nat.eq_of_testBit_eq
  intro i
  simp only [Nat.testBit_and, Nat.testBit_shiftLeft, Nat.testBit_two_pow_sub_one,
    Nat.testBit_mod_two_pow]
  by_cases h1 : s ≤ i <;> by_cases h2 : i - s < n <;> simp [h1, h2]

theorem and_low_mask (x n : Nat) : x &&& (2 ^ n - 1) = x % 2 ^ n :=
  Nat.and_pow_two_sub_one_eq_mod x n

theorem dac_word_arith (c x : Nat) (hx : x < 1024) :
    (c <<< 12) ||| (x <<< 2) = c * 4096 + x * 4 := by
  have h : x <<< 2 < 2 ^ 12 := by rw [Nat.shiftLeft_eq]; omega
  have e : c <<< 12 = 2 ^ 12 * c := by rw [Nat.shiftLeft_eq, Nat.mul_comm]
  rw [e, ← Nat.mul_add_lt_is_or h, Nat.shiftLeft_eq]
  omega

theorem dac_word_channel (c x : Nat) (hc : c < 8) (hx : x < 1024) :
    (((c <<< 12) ||| (x <<< 2)) >>> 12) &&& 7 = c := by
  rw [dac_word_arith c x hx, Nat.shiftRight_eq_div_pow]
  have h := and_low_mask ((c * 4096 + x * 4) / 2 ^ 12) 3
  norm_num at h ⊢
  rw [h]; omega

theorem dac_word_data (c x : Nat) (hx : x < 1024) :
    (((c <<< 12) ||| (x <<< 2)) >>> 2) &&& 0x3FF = x := by
  rw [dac_word_arith c x hx, Nat.shiftRight_eq_div_pow]
  have h := and_low_mask ((c * 4096 + x * 4) / 2 ^ 2) 10
  norm_num at h ⊢
  rw [h]; omega

theorem dac_word_lt (c x : Nat) (hc : c < 8) (hx : x < 1024) :
    (c <<< 12) ||| (x <<< 2) < 2 ^ 15 := by
  rw [dac_word_arith c x hx]; omega

theorem wr_data_word_eq (channel_number data : Nat) :
    (Ad53x8.Ad_data.CH_MSK &&& ((channel_number % 2 ^ 8) <<< Ad53x8.Ad_data.CH_SH))
        ||| (Ad53x8.Ad_data.DT_MSK &&& ((data % 2 ^ 16) <<< Ad53x8.Ad_data.DT_SH))
      = ((channel_number % 8) <<< 12) ||| ((data % 1024) <<< 2) := by
  have h1 : 0x7 <<< 12 &&& ((channel_number % 2 ^ 8) <<< 12)
      = ((channel_number % 2 ^ 8) % 2 ^ 3) <<< 12 := field_shift 3 12 _
  have h2 : 0x3FF <<< 2 &&& ((data % 2 ^ 16) <<< 2)
      = ((data % 2 ^ 16) % 2 ^ 10) <<< 2 := field_shift 10 2 _
  have e1 : (channel_number % 2 ^ 8) % 2 ^ 3 = channel_number % 8 := by omega
  have e2 : (data % 2 ^ 16) % 2 ^ 10 = data % 1024 := by omega
  simp only [Ad53x8.Ad_data.CH_MSK, Ad53x8.Ad_data.DT_MSK, Ad53x8.Ad_data.CH_SH,
    Ad53x8.Ad_data.DT_SH]
  rw [h1, h2, e1, e2]

/-! ## The DAC send-word primitive -/

theorem wr_some_data_ret (hw : RegSpace) (d : Device) (polls k wr_data : Nat) (t : Trace)
    (hk : k < polls)
    (h : clearsAfter hw (d.regAddr Ad53x8.Reg.STAT) 32 Ad53x8.R_stat.TX_FULL t k) :
    Ad53x8.wr_some_data hw d polls wr_data t
      = Run.ret () (t ++ List.replicate (k + 1) (Access.load (d.regAddr Ad53x8.Reg.STAT) 32)
          ++ [Access.store (d.regAddr Ad53x8.Reg.TX_FIFO) 16 (wr_data % 2 ^ 16)]) := by
  unfold Ad53x8.wr_some_data
  rw [wait_tx_fifo_ret hw d 32 polls k _ _ t hk h]
  rfl

theorem wr_some_data_spin (hw : RegSpace) (d : Device) (polls wr_data : Nat) (t : Trace)
    (h : ∀ i, i < polls →
      pollValue hw (d.regAddr Ad53x8.Reg.STAT) 32 t i &&& Ad53x8.R_stat.TX_FULL ≠ 0) :
    Ad53x8.wr_some_data hw d polls wr_data t
      = Run.spin (t ++ List.replicate polls (Access.load (d.regAddr Ad53x8.Reg.STAT) 32)) := by
  unfold Ad53x8.wr_some_data
  rw [wait_tx_fifo_spin hw d 32 polls _ _ t h]
  rfl

theorem wr_data_ret (hw : RegSpace) (d : Device) (polls k channel_number data : Nat)
    (t : Trace) (hk : k < polls)
    (hclr : clearsAfter hw (d.regAddr Ad53x8.Reg.STAT) 32 Ad53x8.R_stat.TX_FULL t k) :
    Ad53x8.wr_data hw d polls channel_number data t
      = Run.ret () (t ++ List.replicate (k + 1) (Access.load (d.regAddr Ad53x8.Reg.STAT) 32)
          ++ [Access.store (d.regAddr Ad53x8.Reg.TX_FIFO) 16
                (((channel_number % 8) <<< 12) ||| ((data % 1024) <<< 2))]) := by
  have hc : channel_number % 8 < 8 := Nat.mod_lt _ (by decide)
  have hx : data % 1024 < 1024 := Nat.mod_lt _ (by decide)
  have hlt := dac_word_lt _ _ hc hx
  unfold Ad53x8.wr_data
  rw [wr_data_word_eq, wr_some_data_ret hw d polls k _ t hk hclr,
    Nat.mod_eq_of_lt (by omega)]

/-! ## The ADC command word -/

theorem and_mod_two_pow (m x n : Nat) (hm : m < 2 ^ n) : m &&& (x % 2 ^ n) = m &&& x := by
  apply Nat.eq_of_testBit_eq
  intro i
  simp only [Nat.testBit_and, Nat.testBit_mod_two_pow]
  by_cases hi : i < n
  · simp [hi]
  · have hmi : m.testBit i = false :=
      Nat.testBit_lt_two_pow
        (Nat.lt_of_lt_of_le hm (Nat.pow_le_pow_right (by decide) (by omega)))
    simp [hmi]

theorem adc_channel_field (c : Nat) : 0xC &&& (c <<< 2) = (c % 4) <<< 2 := by
  have h : (2 ^ 2 - 1) <<< 2 &&& (c <<< 2) = (c % 2 ^ 2) <<< 2 := field_shift 2 2 c
  exact h

theorem rd_data_word_eq (channel_number : Nat) :
    Ad7811.Ad_ctrl.EXT_REF ||| Ad7811.Ad_ctrl.PD_FPU
        ||| (Ad7811.Ad_ctrl.CH_MASK
          &&& (((channel_number % 2 ^ 32) <<< Ad7811.Ad_ctrl.CH_SH) % 2 ^ 32))
      = 0xC1 ||| ((channel_number % 4) <<< 2) := by
  have h1 : (0xC : Nat) &&& (((channel_number % 2 ^ 32) <<< 2) % 2 ^ 32)
      = 0xC &&& ((channel_number % 2 ^ 32) <<< 2) := and_mod_two_pow _ _ _ (by decide)
  have h2 : channel_number % 2 ^ 32 % 4 = channel_number % 4 := by omega
  simp only [Ad7811.Ad_ctrl.EXT_REF, Ad7811.Ad_ctrl.PD_FPU, Ad7811.Ad_ctrl.CH_MASK,
    Ad7811.Ad_ctrl.CH_SH]
  rw [h1, adc_channel_field, h2]
  rfl

theorem trace_bind_ret {α β : Type} (r : Run α) (f : α → β) :
    (r.bind fun v t1 => Run.ret (f v) t1).trace = r.trace := by
  cases r <;> rfl

theorem wr_cmd_narrow (hw : RegSpace) (d : Device) (bits polls cmd_data : Nat) (t : Trace) :
    (Ad7811.wr_cmd hw d bits polls cmd_data t).bind (fun v t1 => Run.ret (v % 2 ^ bits) t1)
      = Ad7811.wr_cmd hw d bits polls cmd_data t := by
  unfold Ad7811.wr_cmd
  simp only [Device.writeReg, Device.readReg]
  cases Spi.wait_rx_fifo hw d 32 polls Ad7811.Reg.STAT Ad7811.R_stat.RX_EMPTY
      (t ++ [Access.store (d.regAddr Ad7811.Reg.TX_FIFO) bits (cmd_data % 2 ^ bits)]) with
  | spin t1 => rfl
  | ret v t1 => simp [Run.bind]

theorem rd_data_eq_wr_cmd (hw : RegSpace) (d : Device) (polls channel_number : Nat)
    (t : Trace) :
    Ad7811.rd_data hw d 32 polls channel_number t
      = Ad7811.wr_cmd hw d 32 polls (0xC1 ||| ((channel_number % 4) <<< 2)) t := by
  unfold Ad7811.rd_data
  simp only [max_self]
  rw [rd_data_word_eq, wr_cmd_narrow]

theorem rd_data_word_any (bits channel_number : Nat) (h2 : 2 ≤ bits) :
    Ad7811.Ad_ctrl.EXT_REF ||| Ad7811.Ad_ctrl.PD_FPU
        ||| (Ad7811.Ad_ctrl.CH_MASK
          &&& (((channel_number % 2 ^ bits) <<< Ad7811.Ad_ctrl.CH_SH) % 2 ^ (max bits 32)))
      = 0xC1 ||| ((channel_number % 4) <<< 2) := by
  have hlt : (0xC : Nat) < 2 ^ (max bits 32) :=
    Nat.lt_of_lt_of_le (by decide : (0xC : Nat) < 2 ^ 32)
      (Nat.pow_le_pow_right (by decide) (le_max_right bits 32))
  have h1 : (0xC : Nat) &&& (((channel_number % 2 ^ bits) <<< 2) % 2 ^ (max bits 32))
      = 0xC &&& ((channel_number % 2 ^ bits) <<< 2) := and_mod_two_pow _ _ _ hlt
  have hdvd : 4 ∣ 2 ^ bits := by
    have h := Nat.pow_dvd_pow 2 h2
    exact h
  have h3 : channel_number % 2 ^ bits % 4 = channel_number % 4 :=
    Nat.mod_mod_of_dvd channel_number hdvd
  simp only [Ad7811.Ad_ctrl.EXT_REF, Ad7811.Ad_ctrl.PD_FPU, Ad7811.Ad_ctrl.CH_MASK,
    Ad7811.Ad_ctrl.CH_SH]
  rw [h1, adc_channel_field, h3]
  rfl

theorem rd_data_eq_wr_cmd_any (hw : RegSpace) (d : Device) (bits polls channel_number : Nat)
    (t : Trace) (h2 : 2 ≤ bits) :
    Ad7811.rd_data hw d bits polls channel_number t
      = (Ad7811.wr_cmd hw d (max bits 32) polls (0xC1 ||| ((channel_number % 4) <<< 2)) t).bind
          (fun v t1 => Run.ret (v % 2 ^ bits) t1) := by
  unfold Ad7811.rd_data
  rw [rd_data_word_any bits channel_number h2]

theorem adc_word_lt (r : Nat) (hr : r < 4) : 0xC1 ||| (r <<< 2) < 2 ^ 8 := by
  interval_cases r <;> decide

/-! ## Claims -/

/-- C1: for every channel in 0..7 and data in 0..1023, once TX_FULL clears
(after `k` polls that saw it set), `Ad53x8::wr_data` stores to TX_FIFO the
16-bit word `(channel << 12) | (data << 2)`; bits 12-14 of that word are the
channel, bits 2-11 are the data, and bits 0, 1 and 15 are clear. -/
theorem wr_data_word_fields (hw : RegSpace) (d : Device) (polls k channel data : Nat)
    (t : Trace) (hch : channel ≤ 7) (hdata : data ≤ 1023) (hk : k < polls)
    (hclr : clearsAfter hw (d.regAddr Ad53x8.Reg.STAT) 32 Ad53x8.R_stat.TX_FULL t k) :
    Ad53x8.wr_data hw d polls channel data t
        = Run.ret () (t ++ List.replicate (k + 1) (Access.load (d.regAddr Ad53x8.Reg.STAT) 32)
            ++ [Access.store (d.regAddr Ad53x8.Reg.TX_FIFO) 16
                  ((channel <<< 12) ||| (data <<< 2))])
      ∧ (((channel <<< 12) ||| (data <<< 2)) >>> 12) &&& 7 = channel
      ∧ (((channel <<< 12) ||| (data <<< 2)) >>> 2) &&& 0x3FF = data
      ∧ ((channel <<< 12) ||| (data <<< 2)).testBit 0 = false
      ∧ ((channel <<< 12) ||| (data <<< 2)).testBit 1 = false
      ∧ ((channel <<< 12) ||| (data <<< 2)).testBit 15 = false
      ∧ (channel <<< 12) ||| (data <<< 2) < 2 ^ 16 := by
  have hlt := dac_word_lt channel data (by omega) (by omega)
  refine ⟨?_, dac_word_channel channel data (by omega) (by omega),
    dac_word_data channel data (by omega), by simp, by simp,
    Nat.testBit_lt_two_pow hlt, by omega⟩
  unfold Ad53x8.wr_data
  rw [wr_some_data_ret hw d polls k _ t hk hclr, wr_data_word_eq]
  have e1 : channel % 8 = channel := by omega
  have e2 : data % 1024 = data := by omega
  have e3 : ((channel <<< 12) ||| (data <<< 2)) % 2 ^ 16 = (channel <<< 12) ||| (data <<< 2) :=
    Nat.mod_eq_of_lt (by omega)
  rw [e1, e2, e3]

theorem wr_data_word_fields_witness :
    (5 ≤ 7 ∧ 513 ≤ 1023 ∧ 2 < 3 ∧
      clearsAfter (slowSpace 2 0) (dev32.regAddr Ad53x8.Reg.STAT) 32 Ad53x8.R_stat.TX_FULL [] 2)
    ∧ Ad53x8.wr_data (slowSpace 2 0) dev32 3 5 513 []
        = Run.ret () [Access.load 0x40000004 32, Access.load 0x40000004 32,
            Access.load 0x40000004 32, Access.store 0x40000008 16 0x5804]
    ∧ (0x5804 >>> 12) &&& 7 = 5 ∧ (0x5804 >>> 2) &&& 0x3FF = 513 :=
  have h := wr_data_word_fields (slowSpace 2 0) dev32 3 2 5 513 [] (by decide) (by decide)
    (by decide) (by decide)
  ⟨⟨by decide, by decide, by decide, by decide⟩, h.1, h.2.1, h.2.2.1⟩

/-- C2: for every channel number and data value, whatever their high bits,
once TX_FULL clears `Ad53x8::wr_data` returns having stored to TX_FIFO the word
`((channel_number mod 8) << 12) | ((data mod 1024) << 2)`, the same run as for
the truncated arguments; the channel field of the word depends only on the
channel, the data field only on the data, and bit 15 stays clear. -/
theorem wr_data_truncates (hw : RegSpace) (d : Device) (polls k channel_number data : Nat)
    (t : Trace) (hk : k < polls)
    (hclr : clearsAfter hw (d.regAddr Ad53x8.Reg.STAT) 32 Ad53x8.R_stat.TX_FULL t k) :
    Ad53x8.wr_data hw d polls channel_number data t
        = Run.ret () (t ++ List.replicate (k + 1) (Access.load (d.regAddr Ad53x8.Reg.STAT) 32)
            ++ [Access.store (d.regAddr Ad53x8.Reg.TX_FIFO) 16
                  (((channel_number % 8) <<< 12) ||| ((data % 1024) <<< 2))])
      ∧ Ad53x8.wr_data hw d polls channel_number data t
          = Ad53x8.wr_data hw d polls (channel_number % 8) (data % 1024) t
      ∧ ((((channel_number % 8) <<< 12) ||| ((data % 1024) <<< 2)) >>> 12)
          = channel_number % 8
      ∧ ((((channel_number % 8) <<< 12) ||| ((data % 1024) <<< 2)) >>> 2) &&& 0x3FF
          = data % 1024
      ∧ (((channel_number % 8) <<< 12) ||| ((data % 1024) <<< 2)).testBit 15 = false := by
  have hc : channel_number % 8 < 8 := Nat.mod_lt _ (by decide)
  have hx : data % 1024 < 1024 := Nat.mod_lt _ (by decide)
  have hlt := dac_word_lt _ _ hc hx
  have hword : ∀ c x : Nat, Ad53x8.wr_data hw d polls c x t
      = Ad53x8.wr_some_data hw d polls (((c % 8) <<< 12) ||| ((x % 1024) <<< 2)) t := by
    intro c x
    unfold Ad53x8.wr_data
    rw [wr_data_word_eq]
  refine ⟨?_, ?_, ?_, dac_word_data _ _ hx, Nat.testBit_lt_two_pow hlt⟩
  · exact wr_data_ret hw d polls k channel_number data t hk hclr
  · rw [hword, hword, Nat.mod_mod, Nat.mod_mod]
  · rw [dac_word_arith _ _ hx, Nat.shiftRight_eq_div_pow]
    omega

theorem wr_data_truncates_witness :
    (0 < 1 ∧
      clearsAfter idleSpace (dev32.regAddr Ad53x8.Reg.STAT) 32 Ad53x8.R_stat.TX_FULL [] 0)
    ∧ Ad53x8.wr_data idleSpace dev32 1 0xFD 0xFFFF []
        = Run.ret () [Access.load 0x40000004 32, Access.store 0x40000008 16 0x5FFC]
    ∧ Ad53x8.wr_data idleSpace dev32 1 0xFD 0xFFFF []
        = Ad53x8.wr_data idleSpace dev32 1 5 0x3FF [] :=
  have h := wr_data_truncates idleSpace dev32 1 0 0xFD 0xFFFF [] (by decide) (by decide)
  ⟨⟨by decide, by decide⟩, h.1, h.2.1⟩

/-- C3: for every channel in 0..3, `Ad7811::rd_data(channel)` is `wr_cmd`
applied to the word `0xC1 | (channel << 2)`: bits 2-3 hold the channel, bit 0
(external reference) and bits 6-7 (power-up) are set, bit 1 (convert-start) and
every other bit are clear.  This is the run at the default `T = uint32_t`; at
any other word type (at least 2 bits wide) `wr_cmd` gets the same word and
only the value returned is converted to `T`. -/
theorem rd_data_command_word (hw : RegSpace) (d : Device) (polls channel : Nat) (t : Trace)
    (hch : channel ≤ 3) :
    Ad7811.rd_data hw d 32 polls channel t
        = Ad7811.wr_cmd hw d 32 polls (0xC1 ||| (channel <<< 2)) t
      ∧ ((0xC1 ||| (channel <<< 2)) >>> 2) &&& 3 = channel
      ∧ (0xC1 ||| (channel <<< 2)).testBit 0 = true
      ∧ (0xC1 ||| (channel <<< 2)).testBit 1 = false
      ∧ (0xC1 ||| (channel <<< 2)).testBit 6 = true
      ∧ (0xC1 ||| (channel <<< 2)).testBit 7 = true
      ∧ (∀ i, i ≠ 0 → i ≠ 2 → i ≠ 3 → i ≠ 6 → i ≠ 7 →
          (0xC1 ||| (channel <<< 2)).testBit i = false)
      ∧ (∀ bits, 2 ≤ bits → Ad7811.rd_data hw d bits polls channel t
          = (Ad7811.wr_cmd hw d (max bits 32) polls (0xC1 ||| (channel <<< 2)) t).bind
              (fun v t1 => Run.ret (v % 2 ^ bits) t1)) := by
  have hany : ∀ bits, 2 ≤ bits → Ad7811.rd_data hw d bits polls channel t
      = (Ad7811.wr_cmd hw d (max bits 32) polls (0xC1 ||| (channel <<< 2)) t).bind
          (fun v t1 => Run.ret (v % 2 ^ bits) t1) := by
    intro bits h2
    rw [rd_data_eq_wr_cmd_any hw d bits polls channel t h2, Nat.mod_eq_of_lt (by omega)]
  have hbits : ∀ w : Nat, w < 2 ^ 8 → w.testBit 1 = false → w.testBit 4 = false →
      w.testBit 5 = false → ∀ i, i ≠ 0 → i ≠ 2 → i ≠ 3 → i ≠ 6 → i ≠ 7 →
        w.testBit i = false := by
    intro w hw8 h1 h4 h5 i i0 i2 i3 i6 i7
    by_cases hi : i < 8
    · interval_cases i <;> simp_all
    · exact Nat.testBit_lt_two_pow
        (Nat.lt_of_lt_of_le hw8 (Nat.pow_le_pow_right (by decide) (by omega)))
  have hrun : Ad7811.rd_data hw d 32 polls channel t
      = Ad7811.wr_cmd hw d 32 polls (0xC1 ||| (channel <<< 2)) t := by
    rw [rd_data_eq_wr_cmd, Nat.mod_eq_of_lt (by omega)]
  refine ⟨hrun, ?_⟩
  interval_cases channel
  all_goals
    refine ⟨by decide, by decide, by decide, by decide, by decide, ?_, hany⟩
    exact hbits _ (by decide) (by decide) (by decide) (by decide)

theorem rd_data_command_word_witness :
    3 ≤ 3 ∧ Ad7811.rd_data idleSpace dev32 32 1 3 []
      = Ad7811.wr_cmd idleSpace dev32 32 1 0xCD [] :=
  ⟨by decide, (rd_data_command_word idleSpace dev32 1 3 [] (by decide)).1⟩

/-! ## The ADC round trip -/

theorem wr_cmd_ret (hw : RegSpace) (d : Device) (bits polls k cmd_data : Nat) (t : Trace)
    (hk : k < polls)
    (h : clearsAfter hw (d.regAddr Ad7811.Reg.STAT) 32 Ad7811.R_stat.RX_EMPTY
      (t ++ [Access.store (d.regAddr Ad7811.Reg.TX_FIFO) bits (cmd_data % 2 ^ bits)]) k) :
    Ad7811.wr_cmd hw d bits polls cmd_data t
      = Run.ret
          (hw (t ++ [Access.store (d.regAddr Ad7811.Reg.TX_FIFO) bits (cmd_data % 2 ^ bits)]
              ++ List.replicate (k + 1) (Access.load (d.regAddr Ad7811.Reg.STAT) 32))
            (d.regAddr Ad7811.Reg.RX_FIFO) % 2 ^ bits)
          (t ++ [Access.store (d.regAddr Ad7811.Reg.TX_FIFO) bits (cmd_data % 2 ^ bits)]
            ++ List.replicate (k + 1) (Access.load (d.regAddr Ad7811.Reg.STAT) 32)
            ++ [Access.load (d.regAddr Ad7811.Reg.RX_FIFO) bits]) := by
  unfold Ad7811.wr_cmd
  simp only [Device.writeReg]
  rw [wait_rx_fifo_eq, wait_tx_fifo_ret hw d 32 polls k _ _ _ hk h]
  rfl

theorem wr_cmd_spin (hw : RegSpace) (d : Device) (bits polls cmd_data : Nat) (t : Trace)
    (h : ∀ i, i < polls → pollValue hw (d.regAddr Ad7811.Reg.STAT) 32
      (t ++ [Access.store (d.regAddr Ad7811.Reg.TX_FIFO) bits (cmd_data % 2 ^ bits)]) i
        &&& Ad7811.R_stat.RX_EMPTY ≠ 0) :
    Ad7811.wr_cmd hw d bits polls cmd_data t
      = Run.spin (t ++ [Access.store (d.regAddr Ad7811.Reg.TX_FIFO) bits (cmd_data % 2 ^ bits)]
          ++ List.replicate polls (Access.load (d.regAddr Ad7811.Reg.STAT) 32)) := by
  unfold Ad7811.wr_cmd
  simp only [Device.writeReg]
  rw [wait_rx_fifo_eq, wait_tx_fifo_spin hw d 32 polls _ _ _ h]
  rfl

/-- C4: on a register space whose STAT loads always show TX_FULL clear,
`Ad53x8::init` returns after exactly five stores, in this order: `0x0` to CTRL,
then `0xF000`, `0xC000`, `0xA001`, `0x800C` to TX_FIFO, each TX_FIFO store
preceded by one STAT poll; all four command words have bit 15 set and their
function codes (bits 13-14) are 3, 2, 1, 0. -/
theorem dac_init_sequence (hw : RegSpace) (d : Device) (polls : Nat) (t : Trace)
    (hp : 0 < polls)
    (hclr : ∀ t1, hw t1 (d.regAddr Ad53x8.Reg.STAT) % 2 ^ 32 &&& Ad53x8.R_stat.TX_FULL = 0) :
    Ad53x8.init hw d polls t
        = Run.ret () (t ++
            [Access.store (d.regAddr Ad53x8.Reg.CTRL) 32 0x0,
             Access.load (d.regAddr Ad53x8.Reg.STAT) 32,
             Access.store (d.regAddr Ad53x8.Reg.TX_FIFO) 16 0xF000,
             Access.load (d.regAddr Ad53x8.Reg.STAT) 32,
             Access.store (d.regAddr Ad53x8.Reg.TX_FIFO) 16 0xC000,
             Access.load (d.regAddr Ad53x8.Reg.STAT) 32,
             Access.store (d.regAddr Ad53x8.Reg.TX_FIFO) 16 0xA001,
             Access.load (d.regAddr Ad53x8.Reg.STAT) 32,
             Access.store (d.regAddr Ad53x8.Reg.TX_FIFO) 16 0x800C])
      ∧ ((Ad53x8.init hw d polls t).trace.drop t.length).filter Access.isStore
          = [Access.store (d.regAddr Ad53x8.Reg.CTRL) 32 0x0,
             Access.store (d.regAddr Ad53x8.Reg.TX_FIFO) 16 0xF000,
             Access.store (d.regAddr Ad53x8.Reg.TX_FIFO) 16 0xC000,
             Access.store (d.regAddr Ad53x8.Reg.TX_FIFO) 16 0xA001,
             Access.store (d.regAddr Ad53x8.Reg.TX_FIFO) 16 0x800C]
      ∧ (∀ w ∈ [0xF000, 0xC000, 0xA001, 0x800C], Nat.testBit w 15 = true)
      ∧ [0xF000, 0xC000, 0xA001, 0x800C].map (fun w => (w >>> 13) &&& 3) = [3, 2, 1, 0] := by
  have h0 : ∀ t1, clearsAfter hw (d.regAddr Ad53x8.Reg.STAT) 32 Ad53x8.R_stat.TX_FULL t1 0 :=
    fun t1 => ⟨fun i hi => absurd hi (Nat.not_lt_zero i), by
      rw [pollValue_zero]; exact hclr t1⟩
  have hrun : Ad53x8.init hw d polls t
        = Run.ret () (t ++
            [Access.store (d.regAddr Ad53x8.Reg.CTRL) 32 0x0,
             Access.load (d.regAddr Ad53x8.Reg.STAT) 32,
             Access.store (d.regAddr Ad53x8.Reg.TX_FIFO) 16 0xF000,
             Access.load (d.regAddr Ad53x8.Reg.STAT) 32,
             Access.store (d.regAddr Ad53x8.Reg.TX_FIFO) 16 0xC000,
             Access.load (d.regAddr Ad53x8.Reg.STAT) 32,
             Access.store (d.regAddr Ad53x8.Reg.TX_FIFO) 16 0xA001,
             Access.load (d.regAddr Ad53x8.Reg.STAT) 32,
             Access.store (d.regAddr Ad53x8.Reg.TX_FIFO) 16 0x800C]) := by
    unfold Ad53x8.init
    simp only [wr_some_data_ret hw d polls 0 _ _ hp (h0 _), Run.bind, Device.writeReg]
    simp
  refine ⟨hrun, ?_, by decide, by decide⟩
  rw [hrun]
  simp [Run.trace, Access.isStore]

theorem dac_init_sequence_witness :
    (0 < 1 ∧ ∀ t1, idleSpace t1 (dev32.regAddr Ad53x8.Reg.STAT) % 2 ^ 32
        &&& Ad53x8.R_stat.TX_FULL = 0)
    ∧ Ad53x8.init idleSpace dev32 1 []
        = Run.ret () [Access.store 0x40000000 32 0x0,
            Access.load 0x40000004 32, Access.store 0x40000008 16 0xF000,
            Access.load 0x40000004 32, Access.store 0x40000008 16 0xC000,
            Access.load 0x40000004 32, Access.store 0x40000008 16 0xA001,
            Access.load 0x40000004 32, Access.store 0x40000008 16 0x800C] :=
  have hidle : ∀ t1, idleSpace t1 (dev32.regAddr Ad53x8.Reg.STAT) % 2 ^ 32
      &&& Ad53x8.R_stat.TX_FULL = 0 := fun _ => by simp [idleSpace]
  ⟨⟨by decide, hidle⟩, (dac_init_sequence idleSpace dev32 1 [] (by decide) hidle).1⟩

/-- C5: once RX_EMPTY clears (after `k` polls that saw it set), `Ad7811::init`
returns having made exactly these accesses: one store of `0x0` to CTRL, one
store of `0xC1` to TX_FIFO, the `k + 1` polls of STAT, and one load of RX_FIFO
whose value does not appear in the result.  The two stores are its only
stores. -/
theorem adc_init_sequence (hw : RegSpace) (d : Device) (polls k : Nat) (t : Trace)
    (hk : k < polls)
    (hclr : clearsAfter hw (d.regAddr Ad7811.Reg.STAT) 32 Ad7811.R_stat.RX_EMPTY
      (t ++ [Access.store (d.regAddr Ad7811.Reg.CTRL) 32 0x0,
             Access.store (d.regAddr Ad7811.Reg.TX_FIFO) 32 0xC1]) k) :
    Ad7811.init hw d polls t
        = Run.ret () (t ++
            [Access.store (d.regAddr Ad7811.Reg.CTRL) 32 0x0,
             Access.store (d.regAddr Ad7811.Reg.TX_FIFO) 32 0xC1]
            ++ List.replicate (k + 1) (Access.load (d.regAddr Ad7811.Reg.STAT) 32)
            ++ [Access.load (d.regAddr Ad7811.Reg.RX_FIFO) 32])
      ∧ Ad7811.init hw d polls t
          = (Ad7811.wr_cmd hw d 32 polls 0xC1
              (t ++ [Access.store (d.regAddr Ad7811.Reg.CTRL) 32 0x0])).bind
                (fun _ t2 => Run.ret () t2)
      ∧ ((Ad7811.init hw d polls t).trace.drop t.length).filter Access.isStore
          = [Access.store (d.regAddr Ad7811.Reg.CTRL) 32 0x0,
             Access.store (d.regAddr Ad7811.Reg.TX_FIFO) 32 0xC1] := by
  have hclr1 : clearsAfter hw (d.regAddr Ad7811.Reg.STAT) 32 Ad7811.R_stat.RX_EMPTY
      ((t ++ [Access.store (d.regAddr Ad7811.Reg.CTRL) 32 0x0])
        ++ [Access.store (d.regAddr Ad7811.Reg.TX_FIFO) 32 (0xC1 % 2 ^ 32)]) k := by
    simpa using hclr
  have hrun : Ad7811.init hw d polls t
        = Run.ret () (t ++
            [Access.store (d.regAddr Ad7811.Reg.CTRL) 32 0x0,
             Access.store (d.regAddr Ad7811.Reg.TX_FIFO) 32 0xC1]
            ++ List.replicate (k + 1) (Access.load (d.regAddr Ad7811.Reg.STAT) 32)
            ++ [Access.load (d.regAddr Ad7811.Reg.RX_FIFO) 32]) := by
    have e : Ad7811.init hw d polls t
        = (Ad7811.wr_cmd hw d 32 polls 0xC1
              (t ++ [Access.store (d.regAddr Ad7811.Reg.CTRL) 32 0x0])).bind
                fun _ t2 => Run.ret () t2 := rfl
    rw [e, wr_cmd_ret hw d 32 polls k 0xC1 _ hk hclr1]
    simp [Run.bind]
  refine ⟨hrun, rfl, ?_⟩
  rw [hrun]
  simp [Run.trace, Access.isStore, List.filter_append, List.filter_replicate]

theorem adc_init_sequence_witness :
    (2 < 3 ∧ clearsAfter (slowSpace 4 0x2A5) (dev32.regAddr Ad7811.Reg.STAT) 32
        Ad7811.R_stat.RX_EMPTY
        ([] ++ [Access.store (dev32.regAddr Ad7811.Reg.CTRL) 32 0x0,
                Access.store (dev32.regAddr Ad7811.Reg.TX_FIFO) 32 0xC1]) 2)
    ∧ Ad7811.init (slowSpace 4 0x2A5) dev32 3 []
        = Run.ret () [Access.store 0x40000000 32 0x0, Access.store 0x40000008 32 0xC1,
            Access.load 0x40000004 32, Access.load 0x40000004 32, Access.load 0x40000004 32,
            Access.load 0x4000000C 32] :=
  ⟨⟨by decide, by decide⟩,
    (adc_init_sequence (slowSpace 4 0x2A5) dev32 3 2 [] (by decide) (by decide)).1⟩

/-- C6: round trip.  For every word type `T` (`bits` wide; 32 at the default
`uint32_t`), every command word `cmd` of that type and every value `V`, when
the first load of STAT after the TX_FIFO store shows RX_EMPTY clear and
RX_FIFO then holds `V`, `Ad7811::wr_cmd(cmd)` returns exactly `V` after
exactly three accesses: the store of `cmd` to TX_FIFO (first, with no poll
before it), one poll of STAT, and one load of RX_FIFO. -/
theorem wr_cmd_round_trip (hw : RegSpace) (d : Device) (bits polls cmd V : Nat) (t : Trace)
    (hp : 0 < polls) (hcmd : cmd < 2 ^ bits)
    (hstat : hw (t ++ [Access.store (d.regAddr Ad7811.Reg.TX_FIFO) bits cmd])
        (d.regAddr Ad7811.Reg.STAT) % 2 ^ 32 &&& Ad7811.R_stat.RX_EMPTY = 0)
    (hrx : hw (t ++ [Access.store (d.regAddr Ad7811.Reg.TX_FIFO) bits cmd,
                     Access.load (d.regAddr Ad7811.Reg.STAT) 32])
        (d.regAddr Ad7811.Reg.RX_FIFO) % 2 ^ bits = V) :
    Ad7811.wr_cmd hw d bits polls cmd t
      = Run.ret V (t ++ [Access.store (d.regAddr Ad7811.Reg.TX_FIFO) bits cmd,
          Access.load (d.regAddr Ad7811.Reg.STAT) 32,
          Access.load (d.regAddr Ad7811.Reg.RX_FIFO) bits]) := by
  have hmod : cmd % 2 ^ bits = cmd := Nat.mod_eq_of_lt hcmd
  have hclr : clearsAfter hw (d.regAddr Ad7811.Reg.STAT) 32 Ad7811.R_stat.RX_EMPTY
      (t ++ [Access.store (d.regAddr Ad7811.Reg.TX_FIFO) bits (cmd % 2 ^ bits)]) 0 := by
    refine ⟨fun i hi => absurd hi (Nat.not_lt_zero i), ?_⟩
    rw [pollValue_zero, hmod]; exact hstat
  rw [wr_cmd_ret hw d bits polls 0 cmd t hp hclr, hmod]
  have e : t ++ [Access.store (d.regAddr Ad7811.Reg.TX_FIFO) bits cmd]
        ++ List.replicate (0 + 1) (Access.load (d.regAddr Ad7811.Reg.STAT) 32)
      = t ++ [Access.store (d.regAddr Ad7811.Reg.TX_FIFO) bits cmd,
          Access.load (d.regAddr Ad7811.Reg.STAT) 32] := by simp
  rw [e, hrx]
  simp

theorem wr_cmd_round_trip_witness :
    (0 < 1 ∧ 0xC5 < 2 ^ 32
      ∧ slowSpace 0 0x155 ([] ++ [Access.store (dev32.regAddr Ad7811.Reg.TX_FIFO) 32 0xC5])
          (dev32.regAddr Ad7811.Reg.STAT) % 2 ^ 32 &&& Ad7811.R_stat.RX_EMPTY = 0
      ∧ slowSpace 0 0x155 ([] ++ [Access.store (dev32.regAddr Ad7811.Reg.TX_FIFO) 32 0xC5,
            Access.load (dev32.regAddr Ad7811.Reg.STAT) 32])
          (dev32.regAddr Ad7811.Reg.RX_FIFO) % 2 ^ 32 = 0x155)
    ∧ Ad7811.wr_cmd (slowSpace 0 0x155) dev32 32 1 0xC5 []
        = Run.ret 0x155 [Access.store 0x40000008 32 0xC5, Access.load 0x40000004 32,
            Access.load 0x4000000C 32] :=
  ⟨⟨by decide, by decide, by decide, by decide⟩,
    wr_cmd_round_trip (slowSpace 0 0x155) dev32 32 1 0xC5 0x155 [] (by decide) (by decide)
      (by decide) (by decide)⟩

/-- C7: when the first `k` loads of the status word show the masked flag set
and load `k + 1` shows it clear, `Spi::wait_tx_fifo` and `Spi::wait_rx_fifo`
return after exactly `k + 1` loads of the word at `base + offset` and no store;
and whatever the poll budget, a run that returns has made exactly those
`k + 1` loads, so neither returns after a load that showed the flag set. -/
theorem wait_fifo_polls (hw : RegSpace) (d : Device) (bits polls k offset mask : Nat)
    (t : Trace) (hk : k < polls)
    (hclr : clearsAfter hw (d.regAddr offset) bits mask t k) :
    Spi.wait_tx_fifo hw d bits polls offset mask t
        = Run.ret () (t ++ List.replicate (k + 1) (Access.load (d.regAddr offset) bits))
      ∧ Spi.wait_rx_fifo hw d bits polls offset mask t
        = Run.ret () (t ++ List.replicate (k + 1) (Access.load (d.regAddr offset) bits))
      ∧ (∀ n t1, Spi.wait_tx_fifo hw d bits n offset mask t = Run.ret () t1 →
          t1 = t ++ List.replicate (k + 1) (Access.load (d.regAddr offset) bits))
      ∧ (∀ n t1, Spi.wait_rx_fifo hw d bits n offset mask t = Run.ret () t1 →
          t1 = t ++ List.replicate (k + 1) (Access.load (d.regAddr offset) bits)) := by
  have hconv : ∀ n t1, Spi.wait_tx_fifo hw d bits n offset mask t = Run.ret () t1 →
      t1 = t ++ List.replicate (k + 1) (Access.load (d.regAddr offset) bits) := by
    intro n t1 hret
    rcases clears_or_stuck hw (d.regAddr offset) bits mask t n with ⟨j, hj, hcj⟩ | hs
    · rw [wait_tx_fifo_ret hw d bits n j offset mask t hj hcj] at hret
      have hjk : j = k := clearsAfter_unique hcj hclr
      subst hjk
      injection hret with _ h2
      exact h2.symm
    · rw [wait_tx_fifo_spin hw d bits n offset mask t hs] at hret
      cases hret
  refine ⟨wait_tx_fifo_ret hw d bits polls k offset mask t hk hclr, ?_, hconv, ?_⟩
  · rw [wait_rx_fifo_eq]
    exact wait_tx_fifo_ret hw d bits polls k offset mask t hk hclr
  · intro n t1 hret
    rw [wait_rx_fifo_eq] at hret
    exact hconv n t1 hret

theorem wait_fifo_polls_witness :
    (3 < 10 ∧ clearsAfter (slowSpace 3 0) (dev32.regAddr 0x4) 32 0x8 [] 3)
    ∧ Spi.wait_tx_fifo (slowSpace 3 0) dev32 32 10 0x4 0x8 []
        = Run.ret () [Access.load 0x40000004 32, Access.load 0x40000004 32,
            Access.load 0x40000004 32, Access.load 0x40000004 32]
    ∧ Spi.wait_rx_fifo (slowSpace 3 0) dev32 32 10 0x4 0x8 []
        = Run.ret () [Access.load 0x40000004 32, Access.load 0x40000004 32,
            Access.load 0x40000004 32, Access.load 0x40000004 32] :=
  have h := wait_fifo_polls (slowSpace 3 0) dev32 32 10 3 0x4 0x8 [] (by decide) (by decide)
  ⟨⟨by decide, by decide⟩, h.1, h.2.1⟩

/-- C8: when every load of the status word shows the masked flag set,
`Spi::wait_tx_fifo` and `Spi::wait_rx_fifo` never return: for every bound `N`
the run is still polling after `N` loads, and nothing but those loads has
happened. -/
theorem wait_fifo_never_returns (hw : RegSpace) (d : Device) (bits offset mask : Nat)
    (t : Trace)
    (hstuck : ∀ i, pollValue hw (d.regAddr offset) bits t i &&& mask ≠ 0) :
    ∀ N, Spi.wait_tx_fifo hw d bits N offset mask t
          = Run.spin (t ++ List.replicate N (Access.load (d.regAddr offset) bits))
      ∧ Spi.wait_rx_fifo hw d bits N offset mask t
          = Run.spin (t ++ List.replicate N (Access.load (d.regAddr offset) bits))
      ∧ (Spi.wait_tx_fifo hw d bits N offset mask t).returned = false
      ∧ (Spi.wait_rx_fifo hw d bits N offset mask t).returned = false := by
  intro N
  have h := wait_tx_fifo_spin hw d bits N offset mask t (fun i _ => hstuck i)
  refine ⟨h, ?_, ?_, ?_⟩
  · rw [wait_rx_fifo_eq]; exact h
  · rw [h]; rfl
  · rw [wait_rx_fifo_eq, h]; rfl

theorem wait_fifo_never_returns_witness :
    (∀ i, pollValue stuckSpace (dev32.regAddr 0x4) 32 [] i &&& 0x1 ≠ 0)
    ∧ Spi.wait_tx_fifo stuckSpace dev32 32 3 0x4 0x1 []
        = Run.spin [Access.load 0x40000004 32, Access.load 0x40000004 32,
            Access.load 0x40000004 32] :=
  have hs : ∀ i, pollValue stuckSpace (dev32.regAddr 0x4) 32 [] i &&& 0x1 ≠ 0 :=
    fun _ => by simp [pollValue, stuckSpace]
  ⟨hs, (wait_fifo_never_returns stuckSpace dev32 32 0x4 0x1 [] hs 3).1⟩

/-- C9: for every 16-bit word `w`, when TX_FULL is set for the first `k` loads
of STAT and clear on load `k + 1`, `Ad53x8::wr_some_data(w)` loads STAT exactly
`k + 1` times, then stores `w` once to TX_FIFO, and makes no further access;
`wr_data` is `wr_some_data` on its command word; and a run cut off within the
first `k` polls has made no store. -/
theorem wr_some_data_polls_then_stores (hw : RegSpace) (d : Device) (polls k w : Nat)
    (t : Trace) (hw16 : w < 2 ^ 16) (hk : k < polls)
    (hclr : clearsAfter hw (d.regAddr Ad53x8.Reg.STAT) 32 Ad53x8.R_stat.TX_FULL t k) :
    Ad53x8.wr_some_data hw d polls w t
        = Run.ret () (t ++ List.replicate (k + 1) (Access.load (d.regAddr Ad53x8.Reg.STAT) 32)
            ++ [Access.store (d.regAddr Ad53x8.Reg.TX_FIFO) 16 w])
      ∧ (∀ channel_number data, Ad53x8.wr_data hw d polls channel_number data t
          = Run.ret () (t
              ++ List.replicate (k + 1) (Access.load (d.regAddr Ad53x8.Reg.STAT) 32)
              ++ [Access.store (d.regAddr Ad53x8.Reg.TX_FIFO) 16
                    (((channel_number % 8) <<< 12) ||| ((data % 1024) <<< 2))]))
      ∧ (∀ n, n ≤ k → Ad53x8.wr_some_data hw d n w t
          = Run.spin (t ++ List.replicate n (Access.load (d.regAddr Ad53x8.Reg.STAT) 32))) := by
  refine ⟨?_, ?_, ?_⟩
  · rw [wr_some_data_ret hw d polls k w t hk hclr, Nat.mod_eq_of_lt hw16]
  · intro channel_number data
    exact wr_data_ret hw d polls k channel_number data t hk hclr
  · intro n hn
    exact wr_some_data_spin hw d n w t (fun i hi => hclr.1 i (by omega))

theorem wr_some_data_polls_then_stores_witness :
    (0xA001 < 2 ^ 16 ∧ 2 < 5
      ∧ clearsAfter (slowSpace 2 0x2) (dev32.regAddr Ad53x8.Reg.STAT) 32
          Ad53x8.R_stat.TX_FULL [] 2)
    ∧ Ad53x8.wr_some_data (slowSpace 2 0x2) dev32 5 0xA001 []
        = Run.ret () [Access.load 0x40000004 32, Access.load 0x40000004 32,
            Access.load 0x40000004 32, Access.store 0x40000008 16 0xA001] :=
  ⟨⟨by decide, by decide, by decide⟩,
    (wr_some_data_polls_then_stores (slowSpace 2 0x2) dev32 5 2 0xA001 [] (by decide)
      (by decide) (by decide)).1⟩

/-! ## The transmit guard -/

theorem guard_none (hw : RegSpace) (stat tx : Nat) (ext : Trace) :
    ext.foldl (txGuardStep hw stat tx) none = none := by
  induction ext with
  | nil => rfl
  | cons a ext ih => simpa [List.foldl_cons, txGuardStep] using ih

theorem guard_loads (hw : RegSpace) (stat tx addr bits : Nat) :
    ∀ (n : Nat) (t : Trace) (b : Bool), ∃ b1 : Bool,
      (List.replicate n (Access.load addr bits)).foldl (txGuardStep hw stat tx)
          (some ⟨t, b⟩)
        = some ⟨t ++ List.replicate n (Access.load addr bits), b1⟩ := by
  intro n
  induction n with
  | zero => intro t b; exact ⟨b, by simp⟩
  | succ n ih =>
    intro t b
    obtain ⟨b1, h1⟩ := ih (t ++ [Access.load addr bits])
      (b || (addr == stat && (hw t addr % 2 ^ bits) &&& 1 == 0))
    refine ⟨b1, ?_⟩
    rw [append_replicate_succ, List.replicate_succ, List.foldl_cons]
    simpa [txGuardStep] using h1

theorem guard_polls_ready (hw : RegSpace) (stat tx : Nat) :
    ∀ (k : Nat) (t : Trace) (b : Bool), clearsAfter hw stat 32 1 t k →
      (List.replicate (k + 1) (Access.load stat 32)).foldl (txGuardStep hw stat tx)
          (some ⟨t, b⟩)
        = some ⟨t ++ List.replicate (k + 1) (Access.load stat 32), true⟩ := by
  intro k
  induction k with
  | zero =>
    intro t b h
    have h0 := h.2
    rw [pollValue_zero] at h0
    simp only [Nat.reducePow] at h0
    simp [txGuardStep, h0]
  | succ k ih =>
    intro t b h
    have h1 := ih (t ++ [Access.load stat 32])
      (b || (stat == stat && (hw t stat % 2 ^ 32) &&& 1 == 0)) (clearsAfter_shift h)
    rw [append_replicate_succ, List.replicate_succ, List.foldl_cons]
    simpa [txGuardStep] using h1

theorem guardedRun_bind {α β : Type} (hw : RegSpace) (stat tx : Nat) (t : Trace)
    (r : Run α) (f : α → Trace → Run β) (hr : GuardedRun hw stat tx t r)
    (hf : ∀ v t1, GuardedRun hw stat tx t1 (f v t1)) :
    GuardedRun hw stat tx t (r.bind f) := by
  intro b
  obtain ⟨ext1, b1, ht1, hg1⟩ := hr b
  cases r with
  | spin t1 => exact ⟨ext1, b1, ht1, hg1⟩
  | ret v t1 =>
    have ht1a : t1 = t ++ ext1 := ht1
    obtain ⟨ext2, b2, ht2, hg2⟩ := hf v t1 b1
    refine ⟨ext1 ++ ext2, b2, ?_, ?_⟩
    · show (f v t1).trace = t ++ (ext1 ++ ext2)
      rw [ht2, ht1a, List.append_assoc]
    · rw [List.foldl_append, hg1, ← ht1a, hg2, ht1a, List.append_assoc]

theorem guardedRun_store (hw : RegSpace) (stat tx addr bits val : Nat) (t : Trace)
    (hne : addr ≠ tx) :
    GuardedRun hw stat tx t
      (Run.ret () (t ++ [Access.store addr bits val]) : Run Unit) := by
  intro b
  refine ⟨[Access.store addr bits val], false, rfl, ?_⟩
  simp [txGuardStep, hne]

theorem guardedRun_txGuarded {α : Type} (hw : RegSpace) (stat tx : Nat) (t : Trace)
    (r : Run α) (h : GuardedRun hw stat tx t r) :
    txGuarded hw stat tx t (r.trace.drop t.length) = true := by
  obtain ⟨ext, b1, ht, hg⟩ := h false
  unfold txGuarded
  rw [ht, List.drop_left, hg]
  rfl

theorem wr_some_data_guarded (hw : RegSpace) (d : Device) (polls wr_data : Nat) (t : Trace) :
    GuardedRun hw (d.regAddr Ad53x8.Reg.STAT) (d.regAddr Ad53x8.Reg.TX_FIFO) t
      (Ad53x8.wr_some_data hw d polls wr_data t) := by
  intro b
  rcases clears_or_stuck hw (d.regAddr Ad53x8.Reg.STAT) 32 Ad53x8.R_stat.TX_FULL t polls
    with ⟨k, hk, hc⟩ | hs
  · refine ⟨List.replicate (k + 1) (Access.load (d.regAddr Ad53x8.Reg.STAT) 32)
        ++ [Access.store (d.regAddr Ad53x8.Reg.TX_FIFO) 16 (wr_data % 2 ^ 16)], false, ?_, ?_⟩
    · rw [wr_some_data_ret hw d polls k wr_data t hk hc, List.append_assoc]
      rfl
    · rw [List.foldl_append, guard_polls_ready hw _ _ k t b hc]
      simp [txGuardStep]
  · obtain ⟨b1, h1⟩ := guard_loads hw (d.regAddr Ad53x8.Reg.STAT)
      (d.regAddr Ad53x8.Reg.TX_FIFO) (d.regAddr Ad53x8.Reg.STAT) 32 polls t b
    refine ⟨List.replicate polls (Access.load (d.regAddr Ad53x8.Reg.STAT) 32), b1, ?_, h1⟩
    rw [wr_some_data_spin hw d polls wr_data t hs]
    rfl

theorem dac_init_guarded (hw : RegSpace) (d : Device) (polls : Nat) (t : Trace)
    (hctrl : d.regAddr Ad53x8.Reg.CTRL ≠ d.regAddr Ad53x8.Reg.TX_FIFO) :
    GuardedRun hw (d.regAddr Ad53x8.Reg.STAT) (d.regAddr Ad53x8.Reg.TX_FIFO) t
      (Ad53x8.init hw d polls t) := by
  have e : Ad53x8.init hw d polls t
      = (Run.ret () (d.writeReg 32 Ad53x8.Reg.CTRL Ad53x8.R_ctrl.SPI_LOAD t) : Run Unit).bind
          (fun _ t0 =>
            (Ad53x8.wr_some_data hw d polls
              (Ad53x8.Ad_cmd.WR_CMD ||| Ad53x8.Ad_cmd.CTRL_RST
                ||| Ad53x8.Ad_cmd.RST_DATA_CTRL) t0).bind fun _ t1 =>
            (Ad53x8.wr_some_data hw d polls
              (Ad53x8.Ad_cmd.WR_CMD ||| Ad53x8.Ad_cmd.CTRL_PD) t1).bind fun _ t2 =>
            (Ad53x8.wr_some_data hw d polls
              (Ad53x8.Ad_cmd.WR_CMD ||| Ad53x8.Ad_cmd.CTRL_LDAC
                ||| Ad53x8.Ad_cmd.LDAC_HIGH) t2).bind fun _ t3 =>
            Ad53x8.wr_some_data hw d polls
              (Ad53x8.Ad_cmd.WR_CMD ||| Ad53x8.Ad_cmd.CTRL_GBV ||| Ad53x8.Ad_cmd.GBV_BUF_AD
                ||| Ad53x8.Ad_cmd.GBV_BUF_EH ||| Ad53x8.Ad_cmd.GBV_GAIN_0_VR_AD
                ||| Ad53x8.Ad_cmd.GBV_GAIN_0_VR_EH) t3) := rfl
  rw [e]
  refine guardedRun_bind hw _ _ t _ _ (guardedRun_store hw _ _ _ 32 _ t hctrl) ?_
  intro _ t0
  refine guardedRun_bind hw _ _ t0 _ _ (wr_some_data_guarded hw d polls _ t0) ?_
  intro _ t1
  refine guardedRun_bind hw _ _ t1 _ _ (wr_some_data_guarded hw d polls _ t1) ?_
  intro _ t2
  refine guardedRun_bind hw _ _ t2 _ _ (wr_some_data_guarded hw d polls _ t2) ?_
  intro _ t3
  exact wr_some_data_guarded hw d polls _ t3

theorem wr_cmd_starts_with_store (hw : RegSpace) (d : Device) (bits polls cmd_data : Nat)
    (t : Trace) :
    ∃ rest, (Ad7811.wr_cmd hw d bits polls cmd_data t).trace
      = t ++ Access.store (d.regAddr Ad7811.Reg.TX_FIFO) bits (cmd_data % 2 ^ bits) :: rest := by
  rcases clears_or_stuck hw (d.regAddr Ad7811.Reg.STAT) 32 Ad7811.R_stat.RX_EMPTY
      (t ++ [Access.store (d.regAddr Ad7811.Reg.TX_FIFO) bits (cmd_data % 2 ^ bits)]) polls
    with ⟨k, hk, hc⟩ | hs
  · rw [wr_cmd_ret hw d bits polls k cmd_data t hk hc]
    exact ⟨_, by simp [Run.trace]; rfl⟩
  · rw [wr_cmd_spin hw d bits polls cmd_data t hs]
    exact ⟨_, by simp [Run.trace]; rfl⟩

theorem regAddr_inj (d : Device) (x y : Nat) (hbits : 4 ≤ d.uintptr_bits)
    (hx : x < 16) (hy : y < 16) (h : d.regAddr x = d.regAddr y) : x = y := by
  have hM : 16 ≤ 2 ^ d.uintptr_bits :=
    le_trans (by norm_num) (Nat.pow_le_pow_right (by decide : 0 < 2) hbits)
  have h1 : d.m_base_addr + x ≡ d.m_base_addr + y [MOD 2 ^ d.uintptr_bits] := h
  have h2 : x ≡ y [MOD 2 ^ d.uintptr_bits] := Nat.ModEq.add_left_cancel' _ h1
  have h3 : x % 2 ^ d.uintptr_bits = y % 2 ^ d.uintptr_bits := h2
  rwa [Nat.mod_eq_of_lt (by omega), Nat.mod_eq_of_lt (by omega)] at h3

theorem adc_init_starts_with_stores (hw : RegSpace) (d : Device) (polls : Nat) (t : Trace) :
    ∃ rest, (Ad7811.init hw d polls t).trace
      = t ++ Access.store (d.regAddr Ad7811.Reg.CTRL) 32 0x0
          :: Access.store (d.regAddr Ad7811.Reg.TX_FIFO) 32 0xC1 :: rest := by
  obtain ⟨rest, h⟩ := wr_cmd_starts_with_store hw d 32 polls 0xC1
    (t ++ [Access.store (d.regAddr Ad7811.Reg.CTRL) 32 0x0])
  refine ⟨rest, ?_⟩
  have e : (Ad7811.init hw d polls t).trace
      = (Ad7811.wr_cmd hw d 32 polls 0xC1
          (t ++ [Access.store (d.regAddr Ad7811.Reg.CTRL) 32 0x0])).trace := by
    show (Run.bind (Ad7811.wr_cmd hw d 32 polls 0xC1
          (t ++ [Access.store (d.regAddr Ad7811.Reg.CTRL) 32 0x0]))
          (fun _ t2 => Run.ret () t2)).trace = _
    cases Ad7811.wr_cmd hw d 32 polls 0xC1
        (t ++ [Access.store (d.regAddr Ad7811.Reg.CTRL) 32 0x0]) <;> rfl
  rw [e, h]
  simp

/-- C10, as the claim states it, fails: with TX_FULL permanently set,
`Ad7811::wr_cmd(0xC1)` stores the command to TX_FIFO as its very first access
and then returns; no poll of STAT precedes the store, so the transmit guard
rejects the run. -/
theorem adc_tx_store_unguarded :
    Ad7811.wr_cmd txFullSpace dev32 32 1 0xC1 []
        = Run.ret 1 [Access.store 0x40000008 32 0xC1, Access.load 0x40000004 32,
            Access.load 0x4000000C 32]
      ∧ txGuarded txFullSpace (dev32.regAddr Ad7811.Reg.STAT)
          (dev32.regAddr Ad7811.Reg.TX_FIFO) []
          ((Ad7811.wr_cmd txFullSpace dev32 32 1 0xC1 []).trace.drop 0) = false := by
  decide

/-- C10, amended: in every operation of the DAC driver (`Ad53x8::wr_some_data`,
`wr_data`, `init`), for every register space and every poll budget, each store
to TX_FIFO is preceded, with no store in between, by a `wait_tx_fifo` poll of
STAT that showed TX_FULL clear.  The ADC driver makes no such poll:
`Ad7811::wr_cmd` and `rd_data`, at every word type, store the command to
TX_FIFO as their first access, and `init` does so right after its store to
CTRL. -/
theorem dac_tx_stores_guarded (hw : RegSpace) (d : Device) (polls w channel_number data : Nat)
    (t : Trace) (hbits : 4 ≤ d.uintptr_bits) :
    txGuarded hw (d.regAddr Ad53x8.Reg.STAT) (d.regAddr Ad53x8.Reg.TX_FIFO) t
        ((Ad53x8.wr_some_data hw d polls w t).trace.drop t.length) = true
      ∧ txGuarded hw (d.regAddr Ad53x8.Reg.STAT) (d.regAddr Ad53x8.Reg.TX_FIFO) t
        ((Ad53x8.wr_data hw d polls channel_number data t).trace.drop t.length) = true
      ∧ txGuarded hw (d.regAddr Ad53x8.Reg.STAT) (d.regAddr Ad53x8.Reg.TX_FIFO) t
        ((Ad53x8.init hw d polls t).trace.drop t.length) = true
      ∧ (∀ bits, ∃ rest, (Ad7811.wr_cmd hw d bits polls w t).trace
          = t ++ Access.store (d.regAddr Ad7811.Reg.TX_FIFO) bits (w % 2 ^ bits) :: rest)
      ∧ (∀ bits, ∃ cmd rest, (Ad7811.rd_data hw d bits polls channel_number t).trace
          = t ++ Access.store (d.regAddr Ad7811.Reg.TX_FIFO) (max bits 32) cmd :: rest)
      ∧ (∃ rest, (Ad7811.init hw d polls t).trace
          = t ++ Access.store (d.regAddr Ad7811.Reg.CTRL) 32 0x0
              :: Access.store (d.regAddr Ad7811.Reg.TX_FIFO) 32 0xC1 :: rest) := by
  have hctrl : d.regAddr Ad53x8.Reg.CTRL ≠ d.regAddr Ad53x8.Reg.TX_FIFO := by
    intro h
    have := regAddr_inj d Ad53x8.Reg.CTRL Ad53x8.Reg.TX_FIFO hbits (by decide) (by decide) h
    exact absurd this (by decide)
  refine ⟨?_, ?_, ?_, fun bits => wr_cmd_starts_with_store hw d bits polls w t, ?_,
    adc_init_starts_with_stores hw d polls t⟩
  · exact guardedRun_txGuarded hw _ _ t _ (wr_some_data_guarded hw d polls w t)
  · exact guardedRun_txGuarded hw _ _ t _ (wr_some_data_guarded hw d polls _ t)
  · exact guardedRun_txGuarded hw _ _ t _ (dac_init_guarded hw d polls t hctrl)
  · intro bits
    obtain ⟨rest, h⟩ := wr_cmd_starts_with_store hw d (max bits 32) polls
      (Ad7811.Ad_ctrl.EXT_REF ||| Ad7811.Ad_ctrl.PD_FPU
        ||| (Ad7811.Ad_ctrl.CH_MASK
          &&& (((channel_number % 2 ^ bits) <<< Ad7811.Ad_ctrl.CH_SH) % 2 ^ (max bits 32)))) t
    have e : (Ad7811.rd_data hw d bits polls channel_number t).trace
        = (Ad7811.wr_cmd hw d (max bits 32) polls
            (Ad7811.Ad_ctrl.EXT_REF ||| Ad7811.Ad_ctrl.PD_FPU
              ||| (Ad7811.Ad_ctrl.CH_MASK
                &&& (((channel_number % 2 ^ bits) <<< Ad7811.Ad_ctrl.CH_SH)
                  % 2 ^ (max bits 32)))) t).trace := by
      unfold Ad7811.rd_data
      rw [trace_bind_ret]
    rw [e]
    exact ⟨_, rest, h⟩

theorem dac_tx_stores_guarded_witness :
    4 ≤ dev32.uintptr_bits
    ∧ Ad53x8.init (slowSpace 3 0) dev32 4 []
        = Run.ret () [Access.store 0x40000000 32 0x0,
            Access.load 0x40000004 32, Access.load 0x40000004 32,
            Access.load 0x40000004 32, Access.store 0x40000008 16 0xF000,
            Access.load 0x40000004 32, Access.store 0x40000008 16 0xC000,
            Access.load 0x40000004 32, Access.store 0x40000008 16 0xA001,
            Access.load 0x40000004 32, Access.store 0x40000008 16 0x800C]
    ∧ txGuarded (slowSpace 3 0) (dev32.regAddr Ad53x8.Reg.STAT)
        (dev32.regAddr Ad53x8.Reg.TX_FIFO) []
        ((Ad53x8.init (slowSpace 3 0) dev32 4 []).trace.drop ([] : Trace).length) = true :=
  ⟨by decide, by decide,
    (dac_tx_stores_guarded (slowSpace 3 0) dev32 4 0 0 0 [] (by decide)).2.2.1⟩

/-! ## Which accesses a run can make -/

theorem runWithin_bind {α β : Type} (P : Access → Prop) (t : Trace) (r : Run α)
    (f : α → Trace → Run β) (hr : RunWithin P t r)
    (hf : ∀ v t1, RunWithin P t1 (f v t1)) : RunWithin P t (r.bind f) := by
  obtain ⟨ext1, ht1, hP1⟩ := hr
  cases r with
  | spin t1 => exact ⟨ext1, ht1, hP1⟩
  | ret v t1 =>
    have ht1a : t1 = t ++ ext1 := ht1
    obtain ⟨ext2, ht2, hP2⟩ := hf v t1
    refine ⟨ext1 ++ ext2, ?_, ?_⟩
    · show (f v t1).trace = t ++ (ext1 ++ ext2)
      rw [ht2, ht1a, List.append_assoc]
    · intro a ha
      rcases List.mem_append.mp ha with h | h
      · exact hP1 a h
      · exact hP2 a h

theorem runWithin_mono {α : Type} {P Q : Access → Prop} {t : Trace} {r : Run α}
    (h : ∀ a, P a → Q a) (hr : RunWithin P t r) : RunWithin Q t r := by
  obtain ⟨ext, ht, hP⟩ := hr
  exact ⟨ext, ht, fun a ha => h a (hP a ha)⟩

theorem runWithin_drop {α : Type} {P : Access → Prop} {t : Trace} {r : Run α}
    (hr : RunWithin P t r) : ∀ a ∈ r.trace.drop t.length, P a := by
  obtain ⟨ext, ht, hP⟩ := hr
  rw [ht, List.drop_left]
  exact hP

theorem runWithin_store (P : Access → Prop) (t : Trace) (a : Access) (h : P a) :
    RunWithin P t (Run.ret () (t ++ [a]) : Run Unit) :=
  ⟨[a], rfl, fun x hx => by rw [List.mem_singleton.mp hx]; exact h⟩

theorem wait_tx_fifo_within (hw : RegSpace) (d : Device) (bits n off mask : Nat) (t : Trace) :
    RunWithin (fun a => a = Access.load (d.regAddr off) bits) t
      (Spi.wait_tx_fifo hw d bits n off mask t) := by
  rcases clears_or_stuck hw (d.regAddr off) bits mask t n with ⟨k, hk, hc⟩ | hs
  · rw [wait_tx_fifo_ret hw d bits n k off mask t hk hc]
    exact ⟨_, rfl, fun a ha => List.eq_of_mem_replicate ha⟩
  · rw [wait_tx_fifo_spin hw d bits n off mask t hs]
    exact ⟨_, rfl, fun a ha => List.eq_of_mem_replicate ha⟩

theorem wr_some_data_within (hw : RegSpace) (d : Device) (polls wr_data : Nat) (t : Trace) :
    RunWithin (fun a => a = Access.load (d.regAddr Ad53x8.Reg.STAT) 32
        ∨ a = Access.store (d.regAddr Ad53x8.Reg.TX_FIFO) 16 (wr_data % 2 ^ 16)) t
      (Ad53x8.wr_some_data hw d polls wr_data t) := by
  unfold Ad53x8.wr_some_data
  refine runWithin_bind _ t _ _
    (runWithin_mono (fun a h => Or.inl h) (wait_tx_fifo_within hw d 32 polls _ _ t)) ?_
  intro _ t1
  exact runWithin_store _ t1 _ (Or.inr rfl)

theorem wr_cmd_within (hw : RegSpace) (d : Device) (bits polls cmd_data : Nat) (t : Trace) :
    RunWithin (fun a => a = Access.store (d.regAddr Ad7811.Reg.TX_FIFO) bits (cmd_data % 2 ^ bits)
        ∨ a = Access.load (d.regAddr Ad7811.Reg.STAT) 32
        ∨ a = Access.load (d.regAddr Ad7811.Reg.RX_FIFO) bits) t
      (Ad7811.wr_cmd hw d bits polls cmd_data t) := by
  have e : Ad7811.wr_cmd hw d bits polls cmd_data t
      = (Run.ret () (t ++ [Access.store (d.regAddr Ad7811.Reg.TX_FIFO) bits
            (cmd_data % 2 ^ bits)]) : Run Unit).bind (fun _ t1 =>
          (Spi.wait_rx_fifo hw d 32 polls Ad7811.Reg.STAT Ad7811.R_stat.RX_EMPTY t1).bind
            fun _ t2 => Run.ret (hw t2 (d.regAddr Ad7811.Reg.RX_FIFO) % 2 ^ bits)
              (t2 ++ [Access.load (d.regAddr Ad7811.Reg.RX_FIFO) bits])) := rfl
  rw [e]
  refine runWithin_bind _ t _ _ (runWithin_store _ t _ (Or.inl rfl)) ?_
  intro _ t1
  rw [wait_rx_fifo_eq]
  refine runWithin_bind _ t1 _ _
    (runWithin_mono (fun a h => Or.inr (Or.inl h)) (wait_tx_fifo_within hw d 32 polls _ _ t1)) ?_
  intro _ t2
  exact ⟨[Access.load (d.regAddr Ad7811.Reg.RX_FIFO) bits], rfl,
    fun x hx => by rw [List.mem_singleton.mp hx]; exact Or.inr (Or.inr rfl)⟩

theorem dac_init_eq_bind (hw : RegSpace) (d : Device) (polls : Nat) (t : Trace) :
    Ad53x8.init hw d polls t
      = (Ad53x8.wr_some_data hw d polls 0xF000
          (t ++ [Access.store (d.regAddr Ad53x8.Reg.CTRL) 32 0x0])).bind fun _ t1 =>
        (Ad53x8.wr_some_data hw d polls 0xC000 t1).bind fun _ t2 =>
        (Ad53x8.wr_some_data hw d polls 0xA001 t2).bind fun _ t3 =>
        Ad53x8.wr_some_data hw d polls 0x800C t3 := rfl

theorem dac_init_within (hw : RegSpace) (d : Device) (polls : Nat) (t : Trace) :
    RunWithin (fun a => a = Access.store (d.regAddr Ad53x8.Reg.CTRL) 32 0x0
        ∨ a = Access.load (d.regAddr Ad53x8.Reg.STAT) 32
        ∨ a ∈ [Access.store (d.regAddr Ad53x8.Reg.TX_FIFO) 16 0xF000,
               Access.store (d.regAddr Ad53x8.Reg.TX_FIFO) 16 0xC000,
               Access.store (d.regAddr Ad53x8.Reg.TX_FIFO) 16 0xA001,
               Access.store (d.regAddr Ad53x8.Reg.TX_FIFO) 16 0x800C]) t
      (Ad53x8.init hw d polls t) := by
  have hsend : ∀ (w : Nat) (t1 : Trace),
      w ∈ [0xF000, 0xC000, 0xA001, 0x800C] →
      RunWithin (fun a => a = Access.store (d.regAddr Ad53x8.Reg.CTRL) 32 0x0
        ∨ a = Access.load (d.regAddr Ad53x8.Reg.STAT) 32
        ∨ a ∈ [Access.store (d.regAddr Ad53x8.Reg.TX_FIFO) 16 0xF000,
               Access.store (d.regAddr Ad53x8.Reg.TX_FIFO) 16 0xC000,
               Access.store (d.regAddr Ad53x8.Reg.TX_FIFO) 16 0xA001,
               Access.store (d.regAddr Ad53x8.Reg.TX_FIFO) 16 0x800C]) t1
        (Ad53x8.wr_some_data hw d polls w t1) := by
    intro w t1 hw4
    refine runWithin_mono ?_ (wr_some_data_within hw d polls w t1)
    intro a ha
    rcases ha with h | h
    · exact Or.inr (Or.inl h)
    · right; right
      rw [h]
      simp only [List.mem_cons, List.mem_singleton, List.mem_nil_iff, or_false] at hw4
      rcases hw4 with rfl | rfl | rfl | rfl <;> simp
  have hstore : RunWithin (fun a => a = Access.store (d.regAddr Ad53x8.Reg.CTRL) 32 0x0
        ∨ a = Access.load (d.regAddr Ad53x8.Reg.STAT) 32
        ∨ a ∈ [Access.store (d.regAddr Ad53x8.Reg.TX_FIFO) 16 0xF000,
               Access.store (d.regAddr Ad53x8.Reg.TX_FIFO) 16 0xC000,
               Access.store (d.regAddr Ad53x8.Reg.TX_FIFO) 16 0xA001,
               Access.store (d.regAddr Ad53x8.Reg.TX_FIFO) 16 0x800C]) t
      (Run.ret () (t ++ [Access.store (d.regAddr Ad53x8.Reg.CTRL) 32 0x0]) : Run Unit) :=
    runWithin_store _ t _ (Or.inl rfl)
  have e : Ad53x8.init hw d polls t
      = (Run.ret () (t ++ [Access.store (d.regAddr Ad53x8.Reg.CTRL) 32 0x0]) : Run Unit).bind
          (fun _ t0 =>
            (Ad53x8.wr_some_data hw d polls 0xF000 t0).bind fun _ t1 =>
            (Ad53x8.wr_some_data hw d polls 0xC000 t1).bind fun _ t2 =>
            (Ad53x8.wr_some_data hw d polls 0xA001 t2).bind fun _ t3 =>
            Ad53x8.wr_some_data hw d polls 0x800C t3) := rfl
  rw [e]
  refine runWithin_bind _ t _ _ hstore ?_
  intro _ t0
  refine runWithin_bind _ t0 _ _ (hsend _ t0 (by simp)) ?_
  intro _ t1
  refine runWithin_bind _ t1 _ _ (hsend _ t1 (by simp)) ?_
  intro _ t2
  refine runWithin_bind _ t2 _ _ (hsend _ t2 (by simp)) ?_
  intro _ t3
  exact hsend _ t3 (by simp)

theorem adc_init_within (hw : RegSpace) (d : Device) (polls : Nat) (t : Trace) :
    RunWithin (fun a => a = Access.store (d.regAddr Ad7811.Reg.CTRL) 32 0x0
        ∨ a = Access.store (d.regAddr Ad7811.Reg.TX_FIFO) 32 0xC1
        ∨ a = Access.load (d.regAddr Ad7811.Reg.STAT) 32
        ∨ a = Access.load (d.regAddr Ad7811.Reg.RX_FIFO) 32) t
      (Ad7811.init hw d polls t) := by
  have e : Ad7811.init hw d polls t
      = (Run.ret () (t ++ [Access.store (d.regAddr Ad7811.Reg.CTRL) 32 0x0]) : Run Unit).bind
          (fun _ t1 => (Ad7811.wr_cmd hw d 32 polls 0xC1 t1).bind fun _ t2 => Run.ret () t2) := rfl
  rw [e]
  refine runWithin_bind _ t _ _ (runWithin_store _ t _ (Or.inl rfl)) ?_
  intro _ t1
  refine runWithin_bind _ t1 _ _
    (runWithin_mono (fun a h => Or.inr h) (wr_cmd_within hw d 32 polls 0xC1 t1)) ?_
  intro _ t2
  exact ⟨[], by simp [Run.trace], fun a ha => absurd ha (List.not_mem_nil a)⟩

theorem dac_init_starts_with_store (hw : RegSpace) (d : Device) (polls : Nat) (t : Trace) :
    ∃ rest, (Ad53x8.init hw d polls t).trace
      = t ++ Access.store (d.regAddr Ad53x8.Reg.CTRL) 32 0x0 :: rest := by
  have h : RunWithin (fun _ => True) (t ++ [Access.store (d.regAddr Ad53x8.Reg.CTRL) 32 0x0])
      (Ad53x8.init hw d polls t) := by
    rw [dac_init_eq_bind]
    refine runWithin_bind _ _ _ _
      (runWithin_mono (fun _ _ => trivial) (wr_some_data_within hw d polls _ _)) ?_
    intro _ t1
    refine runWithin_bind _ _ _ _
      (runWithin_mono (fun _ _ => trivial) (wr_some_data_within hw d polls _ _)) ?_
    intro _ t2
    refine runWithin_bind _ _ _ _
      (runWithin_mono (fun _ _ => trivial) (wr_some_data_within hw d polls _ _)) ?_
    intro _ t3
    exact runWithin_mono (fun _ _ => trivial) (wr_some_data_within hw d polls _ _)
  obtain ⟨ext, hext, _⟩ := h
  exact ⟨ext, by rw [hext]; simp⟩

theorem dac_init_ret (hw : RegSpace) (d : Device) (polls k1 k2 k3 k4 : Nat)
    (t t0 t1 t2 t3 : Trace)
    (ht0 : t0 = t ++ [Access.store (d.regAddr Ad53x8.Reg.CTRL) 32 0x0])
    (ht1 : t1 = t0 ++ List.replicate (k1 + 1) (Access.load (d.regAddr Ad53x8.Reg.STAT) 32)
        ++ [Access.store (d.regAddr Ad53x8.Reg.TX_FIFO) 16 0xF000])
    (ht2 : t2 = t1 ++ List.replicate (k2 + 1) (Access.load (d.regAddr Ad53x8.Reg.STAT) 32)
        ++ [Access.store (d.regAddr Ad53x8.Reg.TX_FIFO) 16 0xC000])
    (ht3 : t3 = t2 ++ List.replicate (k3 + 1) (Access.load (d.regAddr Ad53x8.Reg.STAT) 32)
        ++ [Access.store (d.regAddr Ad53x8.Reg.TX_FIFO) 16 0xA001])
    (hk1 : k1 < polls) (hk2 : k2 < polls) (hk3 : k3 < polls) (hk4 : k4 < polls)
    (h1 : clearsAfter hw (d.regAddr Ad53x8.Reg.STAT) 32 Ad53x8.R_stat.TX_FULL t0 k1)
    (h2 : clearsAfter hw (d.regAddr Ad53x8.Reg.STAT) 32 Ad53x8.R_stat.TX_FULL t1 k2)
    (h3 : clearsAfter hw (d.regAddr Ad53x8.Reg.STAT) 32 Ad53x8.R_stat.TX_FULL t2 k3)
    (h4 : clearsAfter hw (d.regAddr Ad53x8.Reg.STAT) 32 Ad53x8.R_stat.TX_FULL t3 k4) :
    Ad53x8.init hw d polls t
      = Run.ret () (t3 ++ List.replicate (k4 + 1) (Access.load (d.regAddr Ad53x8.Reg.STAT) 32)
          ++ [Access.store (d.regAddr Ad53x8.Reg.TX_FIFO) 16 0x800C]) := by
  rw [dac_init_eq_bind, ← ht0, wr_some_data_ret hw d polls k1 _ t0 hk1 h1]
  simp only [Run.bind]
  have e1 : (0xF000 : Nat) % 2 ^ 16 = 0xF000 := by decide
  rw [e1, ← ht1, wr_some_data_ret hw d polls k2 _ t1 hk2 h2]
  simp only [Run.bind]
  have e2 : (0xC000 : Nat) % 2 ^ 16 = 0xC000 := by decide
  rw [e2, ← ht2, wr_some_data_ret hw d polls k3 _ t2 hk3 h3]
  simp only [Run.bind]
  have e3 : (0xA001 : Nat) % 2 ^ 16 = 0xA001 := by decide
  have e4 : (0x800C : Nat) % 2 ^ 16 = 0x800C := by decide
  rw [e3, ← ht3, wr_some_data_ret hw d polls k4 _ t3 hk4 h4, e4]

/-! ## Claims on routing, refinement and layout -/

/-- C11, as the claim states it, fails: with TX_FULL permanently set,
`Ad53x8::init` still stores the mode value to CTRL, as its very first access,
before any poll of STAT; the run then spins in the first `wait_tx_fifo`. -/
theorem dac_mode_store_unguarded :
    Ad53x8.init stuckSpace dev32 2 []
        = Run.spin [Access.store 0x40000000 32 0x0, Access.load 0x40000004 32,
            Access.load 0x40000004 32]
      ∧ txGuarded stuckSpace (dev32.regAddr Ad53x8.Reg.STAT)
          (dev32.regAddr Ad53x8.Reg.CTRL) []
          ((Ad53x8.init stuckSpace dev32 2 []).trace.drop 0) = false := by
  decide

/-- C11, amended: in `Ad53x8::init` the four chip command words are routed
through the FIFO synchronizer: each of the stores of `0xF000`, `0xC000`,
`0xA001`, `0x800C` to TX_FIFO directly follows the `wait_tx_fifo` poll of STAT
that showed TX_FULL clear (after `k1`, `k2`, `k3`, `k4` polls that showed it
set).  The mode store to CTRL is not routed through it: it is the first access
of `init`, for every register space and poll budget, with no poll before
it. -/
theorem dac_init_routing (hw : RegSpace) (d : Device) (polls k1 k2 k3 k4 : Nat)
    (t t0 t1 t2 t3 : Trace)
    (ht0 : t0 = t ++ [Access.store (d.regAddr Ad53x8.Reg.CTRL) 32 0x0])
    (ht1 : t1 = t0 ++ List.replicate (k1 + 1) (Access.load (d.regAddr Ad53x8.Reg.STAT) 32)
        ++ [Access.store (d.regAddr Ad53x8.Reg.TX_FIFO) 16 0xF000])
    (ht2 : t2 = t1 ++ List.replicate (k2 + 1) (Access.load (d.regAddr Ad53x8.Reg.STAT) 32)
        ++ [Access.store (d.regAddr Ad53x8.Reg.TX_FIFO) 16 0xC000])
    (ht3 : t3 = t2 ++ List.replicate (k3 + 1) (Access.load (d.regAddr Ad53x8.Reg.STAT) 32)
        ++ [Access.store (d.regAddr Ad53x8.Reg.TX_FIFO) 16 0xA001])
    (hk1 : k1 < polls) (hk2 : k2 < polls) (hk3 : k3 < polls) (hk4 : k4 < polls)
    (h1 : clearsAfter hw (d.regAddr Ad53x8.Reg.STAT) 32 Ad53x8.R_stat.TX_FULL t0 k1)
    (h2 : clearsAfter hw (d.regAddr Ad53x8.Reg.STAT) 32 Ad53x8.R_stat.TX_FULL t1 k2)
    (h3 : clearsAfter hw (d.regAddr Ad53x8.Reg.STAT) 32 Ad53x8.R_stat.TX_FULL t2 k3)
    (h4 : clearsAfter hw (d.regAddr Ad53x8.Reg.STAT) 32 Ad53x8.R_stat.TX_FULL t3 k4)
    (hbits : 4 ≤ d.uintptr_bits) :
    Ad53x8.init hw d polls t
        = Run.ret () (t3
            ++ List.replicate (k4 + 1) (Access.load (d.regAddr Ad53x8.Reg.STAT) 32)
            ++ [Access.store (d.regAddr Ad53x8.Reg.TX_FIFO) 16 0x800C])
      ∧ txGuarded hw (d.regAddr Ad53x8.Reg.STAT) (d.regAddr Ad53x8.Reg.TX_FIFO) t
          ((Ad53x8.init hw d polls t).trace.drop t.length) = true
      ∧ (∀ (hw1 : RegSpace) (n : Nat), ∃ rest, (Ad53x8.init hw1 d n t).trace
          = t ++ Access.store (d.regAddr Ad53x8.Reg.CTRL) 32 0x0 :: rest)
      ∧ (∀ (hw1 : RegSpace) (n : Nat),
          txGuarded hw1 (d.regAddr Ad53x8.Reg.STAT) (d.regAddr Ad53x8.Reg.CTRL) t
            ((Ad53x8.init hw1 d n t).trace.drop t.length) = false) := by
  have hctrl : d.regAddr Ad53x8.Reg.CTRL ≠ d.regAddr Ad53x8.Reg.TX_FIFO := by
    intro h
    have := regAddr_inj d Ad53x8.Reg.CTRL Ad53x8.Reg.TX_FIFO hbits (by decide) (by decide) h
    exact absurd this (by decide)
  refine ⟨dac_init_ret hw d polls k1 k2 k3 k4 t t0 t1 t2 t3 ht0 ht1 ht2 ht3 hk1 hk2 hk3 hk4
      h1 h2 h3 h4,
    guardedRun_txGuarded hw _ _ t _ (dac_init_guarded hw d polls t hctrl),
    fun hw1 n => dac_init_starts_with_store hw1 d n t, ?_⟩
  intro hw1 n
  obtain ⟨rest, hrest⟩ := dac_init_starts_with_store hw1 d n t
  unfold txGuarded
  rw [hrest, List.drop_left, List.foldl_cons]
  have hstep : txGuardStep hw1 (d.regAddr Ad53x8.Reg.STAT) (d.regAddr Ad53x8.Reg.CTRL)
      (some ⟨t, false⟩) (Access.store (d.regAddr Ad53x8.Reg.CTRL) 32 0x0) = none := by
    simp [txGuardStep]
  rw [hstep, guard_none]
  rfl

theorem dac_init_routing_witness :
    (clearsAfter (slowSpace 3 0) (dev32.regAddr Ad53x8.Reg.STAT) 32 Ad53x8.R_stat.TX_FULL
        [Access.store 0x40000000 32 0x0] 2
      ∧ 4 ≤ dev32.uintptr_bits)
    ∧ Ad53x8.init (slowSpace 3 0) dev32 4 []
        = Run.ret () [Access.store 0x40000000 32 0x0,
            Access.load 0x40000004 32, Access.load 0x40000004 32,
            Access.load 0x40000004 32, Access.store 0x40000008 16 0xF000,
            Access.load 0x40000004 32, Access.store 0x40000008 16 0xC000,
            Access.load 0x40000004 32, Access.store 0x40000008 16 0xA001,
            Access.load 0x40000004 32, Access.store 0x40000008 16 0x800C] :=
  ⟨⟨by decide, by decide⟩,
    (dac_init_routing (slowSpace 3 0) dev32 4 2 0 0 0 [] _ _ _ _ rfl rfl rfl rfl
      (by decide) (by decide) (by decide) (by decide)
      (by decide) (by decide) (by decide) (by decide) (by decide)).1⟩

/-- C12: at the default `T = uint32_t`, for every channel value and every
register space, `Ad7811::rd_data` is `wr_cmd` applied to the word `0xC1 | (0xC & (channel << 2))`: the two runs
make the same accesses and have the same outcome; and when the round trip
completes, the value returned is the 32-bit word loaded from RX_FIFO,
unchanged. -/
theorem rd_data_refines_wr_cmd (hw : RegSpace) (d : Device) (polls channel_number : Nat)
    (t : Trace) :
    Ad7811.rd_data hw d 32 polls channel_number t
        = Ad7811.wr_cmd hw d 32 polls (0xC1 ||| (0xC &&& (channel_number <<< 2))) t
      ∧ (∀ k, k < polls →
          clearsAfter hw (d.regAddr Ad7811.Reg.STAT) 32 Ad7811.R_stat.RX_EMPTY
            (t ++ [Access.store (d.regAddr Ad7811.Reg.TX_FIFO) 32
              (0xC1 ||| (0xC &&& (channel_number <<< 2)))]) k →
          Ad7811.rd_data hw d 32 polls channel_number t
            = Run.ret
                (hw (t ++ [Access.store (d.regAddr Ad7811.Reg.TX_FIFO) 32
                      (0xC1 ||| (0xC &&& (channel_number <<< 2)))]
                    ++ List.replicate (k + 1) (Access.load (d.regAddr Ad7811.Reg.STAT) 32))
                  (d.regAddr Ad7811.Reg.RX_FIFO) % 2 ^ 32)
                (t ++ [Access.store (d.regAddr Ad7811.Reg.TX_FIFO) 32
                      (0xC1 ||| (0xC &&& (channel_number <<< 2)))]
                  ++ List.replicate (k + 1) (Access.load (d.regAddr Ad7811.Reg.STAT) 32)
                  ++ [Access.load (d.regAddr Ad7811.Reg.RX_FIFO) 32])) := by
  have hlt : 0xC1 ||| ((channel_number % 4) <<< 2) < 2 ^ 32 :=
    Nat.lt_of_lt_of_le (adc_word_lt _ (Nat.mod_lt _ (by decide))) (by decide)
  have hmod : (0xC1 ||| ((channel_number % 4) <<< 2)) % 2 ^ 32
      = 0xC1 ||| ((channel_number % 4) <<< 2) := Nat.mod_eq_of_lt hlt
  rw [adc_channel_field, rd_data_eq_wr_cmd]
  refine ⟨rfl, ?_⟩
  intro k hk hclr
  rw [← hmod] at hclr
  have h := wr_cmd_ret hw d 32 polls k _ t hk hclr
  rw [hmod] at h
  exact h

theorem rd_data_refines_wr_cmd_witness :
    Ad7811.rd_data (statSpace 0x0 0x2A5) dev32 32 1 6 []
        = Ad7811.wr_cmd (statSpace 0x0 0x2A5) dev32 32 1 0xC9 []
      ∧ Ad7811.rd_data (statSpace 0x0 0x2A5) dev32 32 1 6 []
        = Run.ret 0x2A5 [Access.store 0x40000008 32 0xC9, Access.load 0x40000004 32,
            Access.load 0x4000000C 32] :=
  have h := rd_data_refines_wr_cmd (statSpace 0x0 0x2A5) dev32 1 6 []
  ⟨h.1, h.2 0 (by decide) (by decide)⟩

/-- C13: every status flag mask is a single bit at its documented position
(DAC: TX_FULL bit 0, TX_EMPTY bit 1; ADC: TX_FULL bit 0, TX_EMPTY bit 1,
RX_FULL bit 2, RX_EMPTY bit 3), and any two distinct masks of one chip have
bitwise AND zero. -/
theorem status_masks_disjoint :
    Ad53x8.R_stat.TX_FULL = 2 ^ 0 ∧ Ad53x8.R_stat.TX_EMPTY = 2 ^ 1
      ∧ Ad7811.R_stat.TX_FULL = 2 ^ 0 ∧ Ad7811.R_stat.TX_EMPTY = 2 ^ 1
      ∧ Ad7811.R_stat.RX_FULL = 2 ^ 2 ∧ Ad7811.R_stat.RX_EMPTY = 2 ^ 3
      ∧ List.Pairwise (fun a b => a &&& b = 0 ∧ a ≠ b)
          [Ad53x8.R_stat.TX_FULL, Ad53x8.R_stat.TX_EMPTY]
      ∧ List.Pairwise (fun a b => a &&& b = 0 ∧ a ≠ b)
          [Ad7811.R_stat.TX_FULL, Ad7811.R_stat.TX_EMPTY, Ad7811.R_stat.RX_FULL,
           Ad7811.R_stat.RX_EMPTY] := by
  decide

/-- C14: within one command word no two fields share a bit.  DAC channel-data
word: the channel mask and the data mask are disjoint.  DAC function word, for
each function: the write flag (bit 15), the function-code field (bits 13-14)
and the payload constants of that function (reset: bit 12; power-down: bits
0-7; LDAC: values 0-2; gain/buffer/Vdd: bits 0-5) are pairwise disjoint, and
every function code lies inside the function-code field.  ADC command word:
external-reference, convert-start, channel mask, differential,
reference-select, power-state and address are pairwise disjoint. -/
theorem command_fields_disjoint :
    Ad53x8.Ad_data.CH_MSK &&& Ad53x8.Ad_data.DT_MSK = 0
      ∧ Ad53x8.Ad_cmd.WR_CMD = 2 ^ 15
      ∧ (∀ f ∈ [Ad53x8.Ad_cmd.CTRL_GBV, Ad53x8.Ad_cmd.CTRL_LDAC, Ad53x8.Ad_cmd.CTRL_PD,
            Ad53x8.Ad_cmd.CTRL_RST], f &&& (0x3 <<< 13) = f)
      ∧ List.Pairwise (fun a b => a &&& b = 0)
          [Ad53x8.Ad_cmd.WR_CMD, 0x3 <<< 13,
           Ad53x8.Ad_cmd.RST_DATA_ONLY, Ad53x8.Ad_cmd.RST_DATA_CTRL]
      ∧ List.Pairwise (fun a b => a &&& b = 0)
          [Ad53x8.Ad_cmd.WR_CMD, 0x3 <<< 13,
           Ad53x8.Ad_cmd.PD_CH_A, Ad53x8.Ad_cmd.PD_CH_B, Ad53x8.Ad_cmd.PD_CH_C,
           Ad53x8.Ad_cmd.PD_CH_D, Ad53x8.Ad_cmd.PD_CH_E, Ad53x8.Ad_cmd.PD_CH_F,
           Ad53x8.Ad_cmd.PD_CH_G, Ad53x8.Ad_cmd.PD_CH_H]
      ∧ List.Pairwise (fun a b => a &&& b = 0)
          [Ad53x8.Ad_cmd.WR_CMD, 0x3 <<< 13,
           Ad53x8.Ad_cmd.LDAC_LOW, Ad53x8.Ad_cmd.LDAC_HIGH, Ad53x8.Ad_cmd.LDAC_SINGLE]
      ∧ List.Pairwise (fun a b => a &&& b = 0)
          [Ad53x8.Ad_cmd.WR_CMD, 0x3 <<< 13,
           Ad53x8.Ad_cmd.GBV_VDD_AD, Ad53x8.Ad_cmd.GBV_VDD_EH, Ad53x8.Ad_cmd.GBV_BUF_AD,
           Ad53x8.Ad_cmd.GBV_BUF_EH, Ad53x8.Ad_cmd.GBV_GAIN_0_VR_AD,
           Ad53x8.Ad_cmd.GBV_GAIN_0_VR_EH, Ad53x8.Ad_cmd.GBV_GAIN_0_2VR_AD,
           Ad53x8.Ad_cmd.GBV_GAIN_0_2VR_EH]
      ∧ Ad53x8.Ad_cmd.RST_DATA_CTRL = 2 ^ 12
      ∧ (∀ p ∈ [Ad53x8.Ad_cmd.PD_CH_A, Ad53x8.Ad_cmd.PD_CH_B, Ad53x8.Ad_cmd.PD_CH_C,
            Ad53x8.Ad_cmd.PD_CH_D, Ad53x8.Ad_cmd.PD_CH_E, Ad53x8.Ad_cmd.PD_CH_F,
            Ad53x8.Ad_cmd.PD_CH_G, Ad53x8.Ad_cmd.PD_CH_H], p < 2 ^ 8)
      ∧ (∀ p ∈ [Ad53x8.Ad_cmd.LDAC_LOW, Ad53x8.Ad_cmd.LDAC_HIGH,
            Ad53x8.Ad_cmd.LDAC_SINGLE], p ≤ 2)
      ∧ (∀ p ∈ [Ad53x8.Ad_cmd.GBV_VDD_AD, Ad53x8.Ad_cmd.GBV_VDD_EH,
            Ad53x8.Ad_cmd.GBV_BUF_AD, Ad53x8.Ad_cmd.GBV_BUF_EH,
            Ad53x8.Ad_cmd.GBV_GAIN_0_VR_AD, Ad53x8.Ad_cmd.GBV_GAIN_0_VR_EH,
            Ad53x8.Ad_cmd.GBV_GAIN_0_2VR_AD, Ad53x8.Ad_cmd.GBV_GAIN_0_2VR_EH], p < 2 ^ 6)
      ∧ List.Pairwise (fun a b => a &&& b = 0)
          [Ad7811.Ad_ctrl.EXT_REF, Ad7811.Ad_ctrl.CONVST, Ad7811.Ad_ctrl.CH_MASK,
           Ad7811.Ad_ctrl.DIFF, Ad7811.Ad_ctrl.REF_V4, Ad7811.Ad_ctrl.PD_FPU,
           Ad7811.Ad_ctrl.ADDR] := by
  decide

/-- C17: for every channel number and data value, every store `Ad53x8::wr_data`
makes is a store to TX_FIFO of a word below `2 ^ 15`, so with the write flag
(bit 15) clear, whereas every word `Ad53x8::init` stores to TX_FIFO has bit 15
set; so no store of `wr_data` is one of the control commands of `init`. -/
theorem wr_data_never_control (hw : RegSpace) (d : Device) (polls channel_number data : Nat)
    (t : Trace) :
    (∀ a ∈ (Ad53x8.wr_data hw d polls channel_number data t).trace.drop t.length,
        a = Access.load (d.regAddr Ad53x8.Reg.STAT) 32
          ∨ ∃ v, a = Access.store (d.regAddr Ad53x8.Reg.TX_FIFO) 16 v
              ∧ v < 2 ^ 15 ∧ v.testBit 15 = false)
      ∧ (∀ a ∈ (Ad53x8.init hw d polls t).trace.drop t.length,
          ∀ v, a = Access.store (d.regAddr Ad53x8.Reg.TX_FIFO) 16 v →
            v.testBit 15 = true ∧ v ∈ [0xF000, 0xC000, 0xA001, 0x800C])
      ∧ (∀ a ∈ (Ad53x8.wr_data hw d polls channel_number data t).trace.drop t.length,
          a ∉ [Access.store (d.regAddr Ad53x8.Reg.TX_FIFO) 16 0xF000,
               Access.store (d.regAddr Ad53x8.Reg.TX_FIFO) 16 0xC000,
               Access.store (d.regAddr Ad53x8.Reg.TX_FIFO) 16 0xA001,
               Access.store (d.regAddr Ad53x8.Reg.TX_FIFO) 16 0x800C]) := by
  have hc : channel_number % 8 < 8 := Nat.mod_lt _ (by decide)
  have hx : data % 1024 < 1024 := Nat.mod_lt _ (by decide)
  have hlt := dac_word_lt _ _ hc hx
  have hdata : ∀ a ∈ (Ad53x8.wr_data hw d polls channel_number data t).trace.drop t.length,
      a = Access.load (d.regAddr Ad53x8.Reg.STAT) 32
        ∨ ∃ v, a = Access.store (d.regAddr Ad53x8.Reg.TX_FIFO) 16 v
            ∧ v < 2 ^ 15 ∧ v.testBit 15 = false := by
    intro a ha
    have hin := runWithin_drop (wr_some_data_within hw d polls
      ((Ad53x8.Ad_data.CH_MSK &&& ((channel_number % 2 ^ 8) <<< Ad53x8.Ad_data.CH_SH))
        ||| (Ad53x8.Ad_data.DT_MSK &&& ((data % 2 ^ 16) <<< Ad53x8.Ad_data.DT_SH))) t) a ha
    rcases hin with h | h
    · exact Or.inl h
    · right
      rw [wr_data_word_eq, Nat.mod_eq_of_lt (by omega)] at h
      exact ⟨_, h, hlt, Nat.testBit_lt_two_pow hlt⟩
  refine ⟨hdata, ?_, ?_⟩
  · intro a ha v hv
    have hin := runWithin_drop (dac_init_within hw d polls t) a ha
    subst hv
    rcases hin with h | h | h
    · exact absurd h (by simp)
    · exact absurd h (by simp)
    · simp only [List.mem_cons, List.mem_singleton, List.mem_nil_iff, or_false,
        Access.store.injEq, true_and] at h
      rcases h with rfl | rfl | rfl | rfl <;> decide
  · intro a ha hmem
    rcases hdata a ha with h | ⟨v, h, hv, _⟩
    · subst h
      simp at hmem
    · subst h
      simp only [List.mem_cons, List.mem_singleton, List.mem_nil_iff, or_false,
        Access.store.injEq, true_and] at hmem
      rcases hmem with rfl | rfl | rfl | rfl <;> omega

/-- C18: at the default `T = uint32_t`, for every channel number, also above
3, `Ad7811::rd_data` is `wr_cmd` applied to `0xC1 | ((channel_number mod 4) << 2)`, one of the four words
`0xC1`, `0xC5`, `0xC9`, `0xCD` (each reached by a channel in 0..3); in that
word the convert-start, differential, reference-select and address bits are
clear and the external-reference and power-up bits are set; channels `c` and
`c + 4` give the same run. -/
theorem rd_data_four_words (hw : RegSpace) (d : Device) (polls channel_number : Nat)
    (t : Trace) :
    Ad7811.rd_data hw d 32 polls channel_number t
        = Ad7811.wr_cmd hw d 32 polls (0xC1 ||| ((channel_number % 4) <<< 2)) t
      ∧ (0xC1 ||| ((channel_number % 4) <<< 2)) ∈ [0xC1, 0xC5, 0xC9, 0xCD]
      ∧ [0, 1, 2, 3].map (fun c => 0xC1 ||| ((c % 4) <<< 2)) = [0xC1, 0xC5, 0xC9, 0xCD]
      ∧ (0xC1 ||| ((channel_number % 4) <<< 2)) &&& Ad7811.Ad_ctrl.CONVST = 0
      ∧ (0xC1 ||| ((channel_number % 4) <<< 2)) &&& Ad7811.Ad_ctrl.DIFF = 0
      ∧ (0xC1 ||| ((channel_number % 4) <<< 2)) &&& Ad7811.Ad_ctrl.REF_V4 = 0
      ∧ (0xC1 ||| ((channel_number % 4) <<< 2)) &&& Ad7811.Ad_ctrl.ADDR = 0
      ∧ (0xC1 ||| ((channel_number % 4) <<< 2)) &&& Ad7811.Ad_ctrl.EXT_REF
          = Ad7811.Ad_ctrl.EXT_REF
      ∧ (0xC1 ||| ((channel_number % 4) <<< 2)) &&& Ad7811.Ad_ctrl.PD_FPU
          = Ad7811.Ad_ctrl.PD_FPU
      ∧ Ad7811.rd_data hw d 32 polls (channel_number + 4) t
          = Ad7811.rd_data hw d 32 polls channel_number t := by
  have hr : channel_number % 4 < 4 := Nat.mod_lt _ (by decide)
  have h4 : (channel_number + 4) % 4 = channel_number % 4 := by omega
  refine ⟨rd_data_eq_wr_cmd hw d polls channel_number t, ?_, by decide, ?_, ?_, ?_, ?_, ?_, ?_,
    ?_⟩
  · generalize channel_number % 4 = r at hr
    interval_cases r <;> decide
  · generalize channel_number % 4 = r at hr
    interval_cases r <;> decide
  · generalize channel_number % 4 = r at hr
    interval_cases r <;> decide
  · generalize channel_number % 4 = r at hr
    interval_cases r <;> decide
  · generalize channel_number % 4 = r at hr
    interval_cases r <;> decide
  · generalize channel_number % 4 = r at hr
    interval_cases r <;> decide
  · generalize channel_number % 4 = r at hr
    interval_cases r <;> decide
  · rw [rd_data_eq_wr_cmd, rd_data_eq_wr_cmd, h4]

/-! ## Status bits, access widths and frame -/

theorem wait_tx_fifo_congr (hw1 hw2 : RegSpace) (d : Device) (bits off mask : Nat)
    (h : ∀ t1, hw1 t1 (d.regAddr off) % 2 ^ bits &&& mask
      = hw2 t1 (d.regAddr off) % 2 ^ bits &&& mask) :
    ∀ (n : Nat) (t : Trace),
      Spi.wait_tx_fifo hw1 d bits n off mask t = Spi.wait_tx_fifo hw2 d bits n off mask t := by
  intro n
  induction n with
  | zero => intro t; rfl
  | succ n ih =>
    intro t
    simp only [Spi.wait_tx_fifo, Device.readReg, h t, ih]

/-- C15: reserved status bits are not interpreted.  If two register spaces
agree, at every point, on bit 0 (TX_FULL) of STAT, then `Ad53x8::wr_some_data`
has the same run on both: same polls, same accesses, same outcome.  If they
agree on bit 3 (RX_EMPTY) of STAT and on the content of RX_FIFO, then
`Ad7811::wr_cmd`, at every word type, has the same run on both and returns the
same value. -/
theorem reserved_status_bits_ignored (hw1 hw2 : RegSpace) (d : Device) (polls : Nat)
    (t : Trace) :
    ((∀ t1, hw1 t1 (d.regAddr Ad53x8.Reg.STAT) % 2 ^ 32 &&& Ad53x8.R_stat.TX_FULL
          = hw2 t1 (d.regAddr Ad53x8.Reg.STAT) % 2 ^ 32 &&& Ad53x8.R_stat.TX_FULL) →
        ∀ w, Ad53x8.wr_some_data hw1 d polls w t = Ad53x8.wr_some_data hw2 d polls w t)
      ∧ (∀ bits,
        (∀ t1, hw1 t1 (d.regAddr Ad7811.Reg.STAT) % 2 ^ 32 &&& Ad7811.R_stat.RX_EMPTY
          = hw2 t1 (d.regAddr Ad7811.Reg.STAT) % 2 ^ 32 &&& Ad7811.R_stat.RX_EMPTY) →
        (∀ t1, hw1 t1 (d.regAddr Ad7811.Reg.RX_FIFO) % 2 ^ bits
          = hw2 t1 (d.regAddr Ad7811.Reg.RX_FIFO) % 2 ^ bits) →
        ∀ cmd, Ad7811.wr_cmd hw1 d bits polls cmd t
          = Ad7811.wr_cmd hw2 d bits polls cmd t) := by
  constructor
  · intro h w
    unfold Ad53x8.wr_some_data
    rw [wait_tx_fifo_congr hw1 hw2 d 32 _ _ h]
  · intro bits h hrx cmd
    unfold Ad7811.wr_cmd
    simp only [wait_rx_fifo_eq, Device.readReg, hrx]
    rw [wait_tx_fifo_congr hw1 hw2 d 32 _ _ h]

theorem reserved_status_bits_ignored_witness :
    Ad53x8.wr_some_data (twoPhaseSpace 2 0x1 0x0) dev32 5 0xA001 []
        = Ad53x8.wr_some_data (twoPhaseSpace 2 0xFFFFFFFF 0xFFFFFFFE) dev32 5 0xA001 []
      ∧ Ad7811.wr_cmd (statSpace 0x0 0x155) dev32 32 5 0xC5 []
        = Ad7811.wr_cmd (statSpace 0xFFFFFFF7 0x155) dev32 32 5 0xC5 [] :=
  have h := reserved_status_bits_ignored
  ⟨(h (twoPhaseSpace 2 0x1 0x0) (twoPhaseSpace 2 0xFFFFFFFF 0xFFFFFFFE) dev32 5 []).1
      (fun t1 => by unfold twoPhaseSpace; split <;> decide) 0xA001,
    (h (statSpace 0x0 0x155) (statSpace 0xFFFFFFF7 0x155) dev32 5 []).2 32
      (fun _ => by (simp [statSpace, dev32, Device.regAddr]; decide))
      (fun _ => by simp [statSpace, dev32, Device.regAddr]) 0xC5⟩

/-- C16, as the claim states it, fails: the store `Ad53x8::wr_some_data` makes
to TX_FIFO is 16 bits wide, not 32, because `writeReg(Reg::TX_FIFO, wr_data)`
deduces its value type from the `uint16_t` argument. -/
theorem dac_tx_store_is_16_bit :
    Ad53x8.wr_some_data idleSpace dev32 1 0xA001 []
        = Run.ret () [Access.load 0x40000004 32, Access.store 0x40000008 16 0xA001]
      ∧ (Ad53x8.wr_some_data idleSpace dev32 1 0xA001 []).trace.map Access.width
        = [32, 16] := by
  decide

theorem wr_data_within (hw : RegSpace) (d : Device) (polls channel_number data : Nat)
    (t : Trace) :
    RunWithin (fun a => a = Access.load (d.regAddr Ad53x8.Reg.STAT) 32
        ∨ a = Access.store (d.regAddr Ad53x8.Reg.TX_FIFO) 16
            (((channel_number % 8) <<< 12) ||| ((data % 1024) <<< 2))) t
      (Ad53x8.wr_data hw d polls channel_number data t) := by
  have hc : channel_number % 8 < 8 := Nat.mod_lt _ (by decide)
  have hx : data % 1024 < 1024 := Nat.mod_lt _ (by decide)
  have hlt := dac_word_lt _ _ hc hx
  have hrun : Ad53x8.wr_data hw d polls channel_number data t
      = Ad53x8.wr_some_data hw d polls
          (((channel_number % 8) <<< 12) ||| ((data % 1024) <<< 2)) t := by
    unfold Ad53x8.wr_data
    rw [wr_data_word_eq]
  have h := wr_some_data_within hw d polls
    (((channel_number % 8) <<< 12) ||| ((data % 1024) <<< 2)) t
  rw [Nat.mod_eq_of_lt (by omega)] at h
  rw [hrun]
  exact h

theorem rd_data_within (hw : RegSpace) (d : Device) (polls channel_number : Nat)
    (t : Trace) :
    RunWithin (fun a => a = Access.store (d.regAddr Ad7811.Reg.TX_FIFO) 32
            (0xC1 ||| ((channel_number % 4) <<< 2))
        ∨ a = Access.load (d.regAddr Ad7811.Reg.STAT) 32
        ∨ a = Access.load (d.regAddr Ad7811.Reg.RX_FIFO) 32) t
      (Ad7811.rd_data hw d 32 polls channel_number t) := by
  have hlt : 0xC1 ||| ((channel_number % 4) <<< 2) < 2 ^ 32 :=
    Nat.lt_of_lt_of_le (adc_word_lt _ (Nat.mod_lt _ (by decide))) (by decide)
  have h := wr_cmd_within hw d 32 polls (0xC1 ||| ((channel_number % 4) <<< 2)) t
  rw [Nat.mod_eq_of_lt hlt] at h
  rw [rd_data_eq_wr_cmd]
  exact h

theorem rd_data_within_any (hw : RegSpace) (d : Device) (bits polls channel_number : Nat)
    (t : Trace) :
    RunWithin (fun a => (∃ v, a = Access.store (d.regAddr Ad7811.Reg.TX_FIFO) (max bits 32) v)
        ∨ a = Access.load (d.regAddr Ad7811.Reg.STAT) 32
        ∨ a = Access.load (d.regAddr Ad7811.Reg.RX_FIFO) (max bits 32)) t
      (Ad7811.rd_data hw d bits polls channel_number t) := by
  unfold Ad7811.rd_data
  refine runWithin_bind _ t _ _ (runWithin_mono ?_ (wr_cmd_within hw d (max bits 32) polls _ t)) ?_
  · intro a ha
    rcases ha with h | h | h
    · exact Or.inl ⟨_, h⟩
    · exact Or.inr (Or.inl h)
    · exact Or.inr (Or.inr h)
  · intro v t1
    exact ⟨[], by simp [Run.trace], fun a ha => absurd ha (List.not_mem_nil a)⟩

/-- C16, amended: every access of the drivers is a load or store, at
`m_base_addr` plus offset, of an object whose width is that of the value type
the accessor template is instantiated with.  STAT polls and the CTRL stores of
both `init` routines are 32 bits wide.  Every store `Ad53x8::wr_some_data`
makes to TX_FIFO (and so each store of `wr_data` and each of the four command
words of `init`) is 16 bits wide.  The TX_FIFO store and the RX_FIFO load of
`Ad7811::wr_cmd<T>` are as wide as `T`; those of `Ad7811::rd_data<T>` are as
wide as the type of its command-word expression, 32 bits for `T` up to 32 bits
and the width of `T` beyond; at the default `T = uint32_t`, and in
`Ad7811::init`, every access of the ADC driver is 32 bits wide. -/
theorem access_widths (hw : RegSpace) (d : Device) (polls w channel_number data cmd : Nat)
    (t : Trace) :
    (∀ a ∈ (Ad53x8.wr_some_data hw d polls w t).trace.drop t.length,
        (a.isStore = false → a.width = 32) ∧ (a.isStore = true → a.width = 16))
      ∧ (∀ a ∈ (Ad53x8.wr_data hw d polls channel_number data t).trace.drop t.length,
          (a.isStore = false → a.width = 32) ∧ (a.isStore = true → a.width = 16))
      ∧ (∀ a ∈ (Ad53x8.init hw d polls t).trace.drop t.length,
          (a.isStore = false → a.width = 32)
            ∧ (a.isStore = true → a = Access.store (d.regAddr Ad53x8.Reg.CTRL) 32 0x0
                ∨ ∃ v, a = Access.store (d.regAddr Ad53x8.Reg.TX_FIFO) 16 v))
      ∧ (∀ bits, ∀ a ∈ (Ad7811.wr_cmd hw d bits polls cmd t).trace.drop t.length,
          a = Access.store (d.regAddr Ad7811.Reg.TX_FIFO) bits (cmd % 2 ^ bits)
            ∨ a = Access.load (d.regAddr Ad7811.Reg.STAT) 32
            ∨ a = Access.load (d.regAddr Ad7811.Reg.RX_FIFO) bits)
      ∧ (∀ bits, ∀ a ∈ (Ad7811.rd_data hw d bits polls channel_number t).trace.drop t.length,
          (∃ v, a = Access.store (d.regAddr Ad7811.Reg.TX_FIFO) (max bits 32) v)
            ∨ a = Access.load (d.regAddr Ad7811.Reg.STAT) 32
            ∨ a = Access.load (d.regAddr Ad7811.Reg.RX_FIFO) (max bits 32))
      ∧ (∀ a ∈ (Ad7811.wr_cmd hw d 32 polls cmd t).trace.drop t.length, a.width = 32)
      ∧ (∀ a ∈ (Ad7811.rd_data hw d 32 polls channel_number t).trace.drop t.length,
          a.width = 32)
      ∧ (∀ a ∈ (Ad7811.init hw d polls t).trace.drop t.length, a.width = 32) := by
  refine ⟨?_, ?_, ?_, ?_, ?_, ?_, ?_, ?_⟩
  · intro a ha
    rcases runWithin_drop (wr_some_data_within hw d polls w t) a ha with h | h <;>
      subst h <;> simp [Access.isStore, Access.width]
  · intro a ha
    rcases runWithin_drop (wr_data_within hw d polls channel_number data t) a ha with h | h <;>
      subst h <;> simp [Access.isStore, Access.width]
  · intro a ha
    rcases runWithin_drop (dac_init_within hw d polls t) a ha with h | h | h
    · subst h; simp [Access.isStore, Access.width]
    · subst h; simp [Access.isStore, Access.width]
    · simp only [List.mem_cons, List.mem_singleton, List.mem_nil_iff, or_false] at h
      rcases h with h | h | h | h <;> subst h <;> simp [Access.isStore, Access.width]
  · intro bits a ha
    exact runWithin_drop (wr_cmd_within hw d bits polls cmd t) a ha
  · intro bits a ha
    exact runWithin_drop (rd_data_within_any hw d bits polls channel_number t) a ha
  · intro a ha
    rcases runWithin_drop (wr_cmd_within hw d 32 polls cmd t) a ha with h | h | h <;>
      subst h <;> rfl
  · intro a ha
    rcases runWithin_drop (rd_data_within hw d polls channel_number t) a ha with h | h | h <;>
      subst h <;> rfl
  · intro a ha
    rcases runWithin_drop (adc_init_within hw d polls t) a ha with h | h | h | h <;>
      subst h <;> rfl

theorem access_widths_witness :
    Ad53x8.init idleSpace dev32 1 []
        = Run.ret () [Access.store 0x40000000 32 0x0,
            Access.load 0x40000004 32, Access.store 0x40000008 16 0xF000,
            Access.load 0x40000004 32, Access.store 0x40000008 16 0xC000,
            Access.load 0x40000004 32, Access.store 0x40000008 16 0xA001,
            Access.load 0x40000004 32, Access.store 0x40000008 16 0x800C]
      ∧ (∀ a ∈ (Ad53x8.init idleSpace dev32 1 []).trace.drop ([] : Trace).length,
          (a.isStore = false → a.width = 32)
            ∧ (a.isStore = true → a = Access.store (dev32.regAddr Ad53x8.Reg.CTRL) 32 0x0
                ∨ ∃ v, a = Access.store (dev32.regAddr Ad53x8.Reg.TX_FIFO) 16 v))
      ∧ Ad7811.wr_cmd (statSpace 0x0 0x12345) dev32 16 1 0xC5 []
        = Run.ret 0x2345 [Access.store 0x40000008 16 0xC5, Access.load 0x40000004 32,
            Access.load 0x4000000C 16]
      ∧ Ad7811.rd_data (statSpace 0x0 0x12345) dev32 64 1 6 []
        = Run.ret 0x12345 [Access.store 0x40000008 64 0xC9, Access.load 0x40000004 32,
            Access.load 0x4000000C 64]
      ∧ Ad7811.rd_data (statSpace 0x0 0x12345) dev32 16 1 6 []
        = Run.ret 0x2345 [Access.store 0x40000008 32 0xC9, Access.load 0x40000004 32,
            Access.load 0x4000000C 32]
      ∧ (∀ a ∈ (Ad7811.rd_data (statSpace 0x0 0x12345) dev32 64 1 6 []).trace.drop
            ([] : Trace).length,
          (∃ v, a = Access.store (dev32.regAddr Ad7811.Reg.TX_FIFO) (max 64 32) v)
            ∨ a = Access.load (dev32.regAddr Ad7811.Reg.STAT) 32
            ∨ a = Access.load (dev32.regAddr Ad7811.Reg.RX_FIFO) (max 64 32)) :=
  have h := access_widths (statSpace 0x0 0x12345) dev32 1 0 6 0 0 []
  ⟨by decide, (access_widths idleSpace dev32 1 0 0 0 0 []).2.2.1, by decide, by decide,
    by decide, h.2.2.2.2.1 64⟩

theorem wr_data_never_control_witness :
    Ad53x8.wr_data idleSpace dev32 1 0xFF 0xFFFF []
        = Run.ret () [Access.load 0x40000004 32, Access.store 0x40000008 16 0x7FFC]
      ∧ (∀ a ∈ (Ad53x8.wr_data idleSpace dev32 1 0xFF 0xFFFF []).trace.drop
            ([] : Trace).length,
          a = Access.load (dev32.regAddr Ad53x8.Reg.STAT) 32
            ∨ ∃ v, a = Access.store (dev32.regAddr Ad53x8.Reg.TX_FIFO) 16 v
                ∧ v < 2 ^ 15 ∧ v.testBit 15 = false) :=
  ⟨by decide, (wr_data_never_control idleSpace dev32 1 0xFF 0xFFFF []).1⟩

theorem rd_data_four_words_witness :
    Ad7811.rd_data (statSpace 0x0 0x2A5) dev32 32 1 7 []
        = Ad7811.wr_cmd (statSpace 0x0 0x2A5) dev32 32 1 0xCD []
      ∧ Ad7811.rd_data (statSpace 0x0 0x2A5) dev32 32 1 (3 + 4) []
        = Ad7811.rd_data (statSpace 0x0 0x2A5) dev32 32 1 3 [] :=
  have h := rd_data_four_words (statSpace 0x0 0x2A5) dev32 1 3 []
  ⟨(rd_data_four_words (statSpace 0x0 0x2A5) dev32 1 7 []).1, h.2.2.2.2.2.2.2.2.2⟩

end Peripherals
